import Mathlib

/-!
# vuex-electron: shared mutations

A shallow embedding of `src/shared-mutations.js` (class `SharedMutations`) and a
verification of its replication protocol: the coordinator ("main") keeps a
registry `connections` of renderer windows keyed by process id, renderers
forward their commits and dispatches to the coordinator, and the coordinator
re-broadcasts them to every registered window except the originating one.

The JavaScript primitives the source relies on (`parseInt`, `!=`, `!==`,
property keys, `Object.keys` order, `delete`) are embedded following ECMA-262.

Conventions of the embedding.

* A JavaScript number is embedded as an integer (or as NaN where `parseInt`
  can produce it): process ids are integers far below `2^53`, the range in
  which a double is exact and prints as plain decimal digits.
* External collaborators (the Vuex store's own `commit`, `dispatch`,
  `replaceState`, Electron's `send`, `sendSync`, `on`) are not part of the
  source file; an outbound `send` may throw, which is an explicit input of
  the embedding, and the store's own entry points are assumed to return.
-/

namespace VuexElectron

/-! ## JavaScript values -/

/-- The primitive JavaScript values that can travel as a process id, a role or
a payload. `number n` is an integer-valued Number. -/
inductive JSVal where
  | undefined
  | null
  | boolean (b : Bool)
  | number (n : Int)
  | string (s : String)
  deriving DecidableEq, Repr

/-- The result of a numeric conversion: NaN, an integer, or some other numeric
value (a fraction or an infinity), which is never equal to an integer. -/
inductive JSNum where
  | nan
  | int (n : Int)
  | other
  deriving DecidableEq, Repr

/-! ## Decimal digits -/

/-- The decimal digit character of `d` (for `d < 10`). -/
def digitChar : Nat → Char
  | 0 => '0'
  | 1 => '1'
  | 2 => '2'
  | 3 => '3'
  | 4 => '4'
  | 5 => '5'
  | 6 => '6'
  | 7 => '7'
  | 8 => '8'
  | _ => '9'

/-- The value of a decimal digit character. -/
def charDigit (c : Char) : Option Nat :=
  if c = '0' then some 0
  else if c = '1' then some 1
  else if c = '2' then some 2
  else if c = '3' then some 3
  else if c = '4' then some 4
  else if c = '5' then some 5
  else if c = '6' then some 6
  else if c = '7' then some 7
  else if c = '8' then some 8
  else if c = '9' then some 9
  else none

/-- Decimal expansion, most significant digit first, prepended to `acc`. -/
def natToDigitsAux : Nat → Nat → List Char → List Char
  | 0, _, acc => acc
  | fuel + 1, n, acc =>
    if n / 10 = 0 then digitChar (n % 10) :: acc
    else natToDigitsAux fuel (n / 10) (digitChar (n % 10) :: acc)

/-- The `Number::toString` of a non-negative integer: its decimal digits. -/
def natToChars (n : Nat) : List Char := natToDigitsAux (n + 1) n []

/-- The `Number::toString` of an integer-valued number (radix 10). -/
def numberToString (n : Int) : String :=
  match n with
  | Int.ofNat m => String.mk (natToChars m)
  | Int.negSucc m => String.mk ('-' :: natToChars (m + 1))

/-- The longest prefix of decimal digits, as digit values, and what follows. -/
def spanDigits : List Char → List Nat × List Char
  | [] => ([], [])
  | c :: cs =>
    match charDigit c with
    | some d => ((spanDigits cs).1.cons d, (spanDigits cs).2)
    | none => ([], c :: cs)

/-- The number denoted by a list of decimal digit values. -/
def digitsValue (ds : List Nat) : Nat := ds.foldl (fun acc d => 10 * acc + d) 0

/-- ECMA-262 `WhiteSpace` and `LineTerminator` code points. -/
def isJSWhitespace (c : Char) : Bool :=
  let n := c.toNat
  n = 0x09 || n = 0x0A || n = 0x0B || n = 0x0C || n = 0x0D || n = 0x20 || n = 0xA0
    || n = 0x1680 || (0x2000 ≤ n && n ≤ 0x200A) || n = 0x2028 || n = 0x2029
    || n = 0x202F || n = 0x205F || n = 0x3000 || n = 0xFEFF

/-- Removes leading white space. -/
def trimStart : List Char → List Char
  | [] => []
  | c :: cs => if isJSWhitespace c then trimStart cs else c :: cs

/-- The body of `parseInt(string, 10)` on the code points of the string: skip
leading white space, read an optional sign, read the longest run of decimal
digits; the result is NaN (`none`) when that run is empty. -/
def parseIntChars (cs : List Char) : Option Int :=
  let s := trimStart cs
  let neg : Bool := match s with
    | c :: _ => decide (c = '-')
    | [] => false
  let body := match s with
    | c :: rest => if c = '+' ∨ c = '-' then rest else c :: rest
    | [] => []
  let ds := (spanDigits body).1
  if ds = [] then none
  else if neg then some (-(digitsValue ds : Int)) else some (digitsValue ds : Int)

/-- The call `parseInt(s, 10)`; `none` is NaN. -/
def parseInt10 (s : String) : Option Int := parseIntChars s.data

/-- A list of characters that are all decimal digits, with their values. -/
def AllDigits (cs : List Char) (ds : List Nat) : Prop :=
  List.Forall₂ (fun c d => charDigit c = some d) cs ds

/-! ## Numeric conversion of strings (`StringToNumber`) -/

/-- Removes leading and trailing white space. -/
def trimJS (cs : List Char) : List Char := (trimStart (trimStart cs).reverse).reverse

/-- The value of a digit character in the given radix (2, 8 or 16). -/
def radixDigit (radix : Nat) (c : Char) : Option Nat :=
  let n := c.toNat
  let v : Option Nat :=
    if 48 ≤ n ∧ n ≤ 57 then some (n - 48)
    else if 97 ≤ n ∧ n ≤ 102 then some (n - 87)
    else if 65 ≤ n ∧ n ≤ 70 then some (n - 55)
    else none
  match v with
  | some d => if d < radix then some d else none
  | none => none

/-- The value of a non-empty run of digits in the given radix. -/
def radixValue (radix : Nat) : List Char → Option Nat
  | [] => none
  | c :: cs =>
    (c :: cs).foldl
      (fun acc ch => match acc, radixDigit radix ch with
        | some a, some d => some (radix * a + d)
        | _, _ => none)
      (some 0)

/-- Splits an optional sign off a list of characters: `true` for `-`. -/
def splitSign : List Char → Bool × List Char
  | c :: rest => if c = '-' then (true, rest) else if c = '+' then (false, rest) else (false, c :: rest)
  | [] => (false, [])

/-- The number `± m × 10 ^ e` as a `JSNum`. -/
def scaledDecimal (neg : Bool) (m : Nat) (e : Int) : JSNum :=
  let signed (v : Nat) : JSNum := if neg then JSNum.int (-(v : Int)) else JSNum.int (v : Int)
  match e with
  | Int.ofNat k => signed (m * 10 ^ k)
  | Int.negSucc k => if m % 10 ^ (k + 1) = 0 then signed (m / 10 ^ (k + 1)) else JSNum.other

/-- The `StrDecimalLiteral` production: an optional sign, then `Infinity` or decimal digits with
an optional fraction and an optional exponent. -/
def strDecimalLiteral (cs : List Char) : JSNum :=
  let (neg, u) := splitSign cs
  if u = ['I', 'n', 'f', 'i', 'n', 'i', 't', 'y'] then JSNum.other
  else
    let ip := spanDigits u
    let fp : List Nat × List Char := match ip.2 with
      | c :: rest => if c = '.' then spanDigits rest else ([], c :: rest)
      | [] => ([], [])
    if ip.1 = [] ∧ fp.1 = [] then JSNum.nan
    else
      let m := digitsValue (ip.1 ++ fp.1)
      match fp.2 with
      | [] => scaledDecimal neg m (-(fp.1.length : Int))
      | c :: rest =>
        if c = 'e' ∨ c = 'E' then
          let (eneg, r) := splitSign rest
          let ep := spanDigits r
          if ep.1 = [] ∨ ep.2 ≠ [] then JSNum.nan
          else
            let ev : Int := if eneg then -(digitsValue ep.1 : Int) else (digitsValue ep.1 : Int)
            scaledDecimal neg m (ev - (fp.1.length : Int))
        else JSNum.nan

/-- The `StringToNumber` operation on the code points of a string: white space is trimmed, the
empty string is `0`, then a radix-prefixed integer or a decimal literal. -/
def stringToNumberChars (cs : List Char) : JSNum :=
  match trimJS cs with
  | [] => JSNum.int 0
  | c0 :: c1 :: rest =>
    if c0 = '0' ∧ (c1 = 'x' ∨ c1 = 'X') then
      match radixValue 16 rest with
      | some v => JSNum.int v
      | none => JSNum.nan
    else if c0 = '0' ∧ (c1 = 'o' ∨ c1 = 'O') then
      match radixValue 8 rest with
      | some v => JSNum.int v
      | none => JSNum.nan
    else if c0 = '0' ∧ (c1 = 'b' ∨ c1 = 'B') then
      match radixValue 2 rest with
      | some v => JSNum.int v
      | none => JSNum.nan
    else strDecimalLiteral (c0 :: c1 :: rest)
  | s => strDecimalLiteral s

/-- The `ToNumber` conversion of a string. -/
def stringToNumber (s : String) : JSNum := stringToNumberChars s.data

/-! ## Equality, truthiness and property keys -/

/-- The test `x != y` where `x` is the result of `parseInt` (`none` is NaN): loose
inequality converts a string or boolean `y` to a number first, and a number is
never loosely equal to `undefined` or `null`. -/
def looseNe (x : Option Int) (y : JSVal) : Bool :=
  match x with
  | none => true
  | some n =>
    match y with
    | JSVal.undefined => true
    | JSVal.null => true
    | JSVal.boolean b => decide (n ≠ (if b then 1 else 0))
    | JSVal.number m => decide (n ≠ m)
    | JSVal.string s => decide (stringToNumber s ≠ JSNum.int n)

/-- The test `x !== y` where `x` is the result of `parseInt` (`none` is NaN): strict
inequality holds unless `y` is a number with the same value. -/
def strictNe (x : Option Int) (y : JSVal) : Bool :=
  match x, y with
  | some n, JSVal.number m => decide (n ≠ m)
  | _, _ => true

/-- The `ToBoolean` conversion. -/
def truthy : JSVal → Bool
  | JSVal.undefined => false
  | JSVal.null => false
  | JSVal.boolean b => b
  | JSVal.number n => decide (n ≠ 0)
  | JSVal.string s => decide (s ≠ "")

/-- The `ToPropertyKey` of a primitive: its `ToString`. -/
def toPropertyKey : JSVal → String
  | JSVal.undefined => "undefined"
  | JSVal.null => "null"
  | JSVal.boolean b => if b then "true" else "false"
  | JSVal.number n => numberToString n
  | JSVal.string s => s

/-! ## Ordinary objects used as dictionaries -/

/-- The own enumerable string-keyed properties of an ordinary object, in order
of creation. A well-formed object has no key twice (`JSObject.WF`). -/
abbrev JSObject (α : Type) := List (String × α)

namespace JSObject

variable {α : Type}

/-- No key occurs twice. -/
def WF (o : JSObject α) : Prop := (o.map Prod.fst).Nodup

instance (o : JSObject α) : Decidable o.WF :=
  inferInstanceAs (Decidable (o.map Prod.fst).Nodup)

/-- Evaluation of `o[k]`; `none` is `undefined`. -/
def get (o : JSObject α) (k : String) : Option α :=
  match o with
  | [] => none
  | e :: rest => if e.1 = k then some e.2 else get rest k

/-- Evaluation of `o[k] = v`: an existing property keeps its position, a new one is
created last. -/
def set (o : JSObject α) (k : String) (v : α) : JSObject α :=
  match o with
  | [] => [(k, v)]
  | e :: rest => if e.1 = k then (k, v) :: rest else e :: set rest k v

/-- Evaluation of `delete o[k]`. -/
def delete (o : JSObject α) (k : String) : JSObject α :=
  o.filter (fun e => decide (e.1 ≠ k))

/-- The array index a key denotes, if any: a canonical decimal numeral below
`2^32 - 1`. -/
def arrayIndex (k : String) : Option Nat :=
  let sp := spanDigits k.data
  let v := digitsValue sp.1
  if sp.2 = [] ∧ sp.1 ≠ [] ∧ natToChars v = k.data ∧ v < 2 ^ 32 - 1 then some v else none

/-- The order of array-index keys: ascending numeric value. -/
def indexLe (a b : String) : Prop := (arrayIndex a).getD 0 ≤ (arrayIndex b).getD 0

instance : DecidableRel indexLe := fun a b =>
  inferInstanceAs (Decidable ((arrayIndex a).getD 0 ≤ (arrayIndex b).getD 0))

/-- The array `Object.keys(o)`: array-index keys in ascending numeric order, then the other
keys in order of creation. -/
def keys (o : JSObject α) : List String :=
  let ks := o.map Prod.fst
  (ks.filter (fun k => (arrayIndex k).isSome)).insertionSort indexLe
    ++ ks.filter (fun k => (arrayIndex k).isNone)

end JSObject

/-! ## Messages and effects -/

/-- Channel name. -/
def IPC_EVENT_CONNECT : String := "vuex-mutations-connect"
/-- Channel name. -/
def IPC_EVENT_REQUEST_STATE : String := "vuex-request-state"
/-- Channel name. -/
def IPC_EVENT_MAIN_SEND_COMMIT : String := "ipc-event-main-send-commit"
/-- Channel name. -/
def IPC_EVENT_MAIN_SEND_DISPATCH : String := "ipc-event-main-send-dispatch"
/-- Channel name. -/
def IPC_EVENT_RENDERER_SEND_COMMIT : String := "ipc-event-renderer-send-commit"
/-- Channel name. -/
def IPC_EVENT_RENDERER_SEND_DISPATCH : String := "ipc-event-renderer-send-dispatch"

/-- A message `send(channel, ...args)`. -/
structure IpcMessage where
  channel : String
  args : List JSVal
  deriving DecidableEq, Repr

/-- The positional parameter `i` of a handler: `undefined` when the message
carries fewer arguments. -/
def IpcMessage.arg (msg : IpcMessage) (i : Nat) : JSVal := msg.args.getD i JSVal.undefined

/-- The identity of a window (`event.sender`, a `webContents`): the channel
handle to one renderer. -/
abbrev Handle := Nat

/-- The observable effects of the plugin's functions. -/
inductive Effect where
  /-- A call `store.originalCommit(type, payload)`. -/
  | originalCommit (type payload : JSVal)
  /-- A call `store.originalDispatch(type, payload)`. -/
  | originalDispatch (type payload : JSVal)
  /-- A completed call `ipcRenderer.send(channel, ...args)`. -/
  | ipcRendererSend (msg : IpcMessage)
  /-- A completed call `win.send(channel, ...args)` on a registered window. -/
  | winSend (win : Handle) (msg : IpcMessage)
  deriving DecidableEq, Repr

/-- What a call did before it returned or threw. -/
structure Outcome where
  effects : List Effect
  threw : Bool
  deriving DecidableEq, Repr

/-! ## The renderer's interceptors and handlers (lines 39-59) -/

/-- The renderer's `store.commit` override: send to the main process, then
`return this.store.originalCommit(type, payload)`. An exception thrown by
`send` leaves the function before the original commit is reached. -/
def rendererCommit (sendThrows : IpcMessage → Bool) (pid : Int) (type payload : JSVal) :
    Outcome :=
  let msg : IpcMessage := ⟨IPC_EVENT_RENDERER_SEND_COMMIT, [type, payload, JSVal.number pid]⟩
  if sendThrows msg then ⟨[], true⟩
  else ⟨[Effect.ipcRendererSend msg, Effect.originalCommit type payload], false⟩

/-- The renderer's `store.dispatch` override. -/
def rendererDispatch (sendThrows : IpcMessage → Bool) (pid : Int) (type payload : JSVal) :
    Outcome :=
  let msg : IpcMessage := ⟨IPC_EVENT_RENDERER_SEND_DISPATCH, [type, payload, JSVal.number pid]⟩
  if sendThrows msg then ⟨[], true⟩
  else ⟨[Effect.ipcRendererSend msg, Effect.originalDispatch type payload], false⟩

/-- The renderer's listeners for messages from the main process: the original
entry point is called, not the override. Other channels have no listener. -/
def rendererReceive (msg : IpcMessage) : List Effect :=
  if msg.channel = IPC_EVENT_MAIN_SEND_COMMIT then
    [Effect.originalCommit (msg.arg 0) (msg.arg 1)]
  else if msg.channel = IPC_EVENT_MAIN_SEND_DISPATCH then
    [Effect.originalDispatch (msg.arg 0) (msg.arg 1)]
  else []

/-! ## The coordinator (lines 62-117) -/

/-- The loop `Object.keys(connections).forEach(...)` of both overrides, over the
remaining keys: for a key that passes the test, `connections[processId].send`
is called; an exception leaves the loop. -/
def broadcast (sendThrows : Handle → IpcMessage → Bool) (connections : JSObject Handle)
    (test : String → Bool) (msg : IpcMessage) : List String → Outcome
  | [] => ⟨[], false⟩
  | processId :: rest =>
    if test processId then
      match connections.get processId with
      | none => ⟨[], true⟩
      | some win =>
        if sendThrows win msg then ⟨[], true⟩
        else
          let o := broadcast sendThrows connections test msg rest
          ⟨Effect.winSend win msg :: o.effects, o.threw⟩
    else broadcast sendThrows connections test msg rest

/-- The coordinator's `store.commit` override (lines 89-96). -/
def mainCommit (sendThrows : Handle → IpcMessage → Bool) (connections : JSObject Handle)
    (type payload pid : JSVal) : Outcome :=
  let o := broadcast sendThrows connections (fun processId => looseNe (parseInt10 processId) pid)
    ⟨IPC_EVENT_MAIN_SEND_COMMIT, [type, payload]⟩ connections.keys
  if o.threw then o else ⟨o.effects ++ [Effect.originalCommit type payload], false⟩

/-- The coordinator's `store.dispatch` override (lines 99-106). -/
def mainDispatch (sendThrows : Handle → IpcMessage → Bool) (connections : JSObject Handle)
    (type payload pid : JSVal) : Outcome :=
  let o := broadcast sendThrows connections (fun processId => strictNe (parseInt10 processId) pid)
    ⟨IPC_EVENT_MAIN_SEND_DISPATCH, [type, payload]⟩ connections.keys
  if o.threw then o else ⟨o.effects ++ [Effect.originalDispatch type payload], false⟩

/-- The coordinator's mutable state: the registry `connections` and the
`"destroyed"` listeners it has put on windows, each with the `pid` its
closure captured, in order of registration. -/
structure MainState where
  connections : JSObject Handle
  destroyedListeners : List (Handle × JSVal)
  deriving DecidableEq, Repr

/-- The state `mainProcessLogic` starts from: `const connections = {}`. -/
def MainState.init : MainState := ⟨[], []⟩

/-- The `IPC_EVENT_CONNECT` handler (lines 73-81). -/
def MainState.onConnect (s : MainState) (sender : Handle) (pid : JSVal) : MainState :=
  { connections := s.connections.set (toPropertyKey pid) sender
    destroyedListeners := s.destroyedListeners ++ [(sender, pid)] }

/-- The window `win` emits `"destroyed"`: every listener put on it runs
`delete connections[pid]` with its own `pid`. -/
def MainState.onDestroyed (s : MainState) (win : Handle) : MainState :=
  { s with
    connections := s.destroyedListeners.foldl
      (fun c l => if l.1 = win then c.delete (toPropertyKey l.2) else c) s.connections }

/-- What can happen to the registry. -/
inductive MainEvent where
  | connect (sender : Handle) (pid : JSVal)
  | destroyed (win : Handle)
  deriving DecidableEq, Repr

/-- One event. -/
def MainState.step (s : MainState) : MainEvent → MainState
  | MainEvent.connect sender pid => s.onConnect sender pid
  | MainEvent.destroyed win => s.onDestroyed win

/-- A sequence of events, from the initial state. -/
def MainState.run (trace : List MainEvent) : MainState := trace.foldl MainState.step MainState.init

/-- The windows a trace destroys, in order. -/
def destroyedIn (trace : List MainEvent) : List Handle :=
  trace.filterMap fun ev =>
    match ev with
    | MainEvent.destroyed win => some win
    | MainEvent.connect _ _ => none

/-- Whether no window of `dead`, and no window the trace has destroyed so far,
is the sender of a Connect message of the trace. -/
def validFrom (dead : List Handle) : List MainEvent → Bool
  | [] => true
  | MainEvent.connect sender _ :: rest => decide (sender ∉ dead) && validFrom dead rest
  | MainEvent.destroyed win :: rest => validFrom (win :: dead) rest

/-- A trace the channel layer can produce: a destroyed window delivers no
further message. -/
def TraceValid (trace : List MainEvent) : Prop := validFrom [] trace = true

instance (trace : List MainEvent) : Decidable (TraceValid trace) :=
  inferInstanceAs (Decidable (validFrom [] trace = true))

/-- Every entry maps to a window outside `dead` that carries a listener for the
entry's key. -/
def RegistryInv (s : MainState) (dead : List Handle) : Prop :=
  ∀ e ∈ s.connections, e.2 ∉ dead ∧
    ∃ pid, (e.2, pid) ∈ s.destroyedListeners ∧ toPropertyKey pid = e.1

/-- The coordinator's listeners for renderer messages (lines 73, 109, 114), with
the state after the message and what the handler did. -/
def mainReceive (sendThrows : Handle → IpcMessage → Bool) (s : MainState) (sender : Handle)
    (msg : IpcMessage) : MainState × Outcome :=
  if msg.channel = IPC_EVENT_CONNECT then (s.onConnect sender (msg.arg 0), ⟨[], false⟩)
  else if msg.channel = IPC_EVENT_RENDERER_SEND_COMMIT then
    (s, mainCommit sendThrows s.connections (msg.arg 0) (msg.arg 1) (msg.arg 2))
  else if msg.channel = IPC_EVENT_RENDERER_SEND_DISPATCH then
    (s, mainDispatch sendThrows s.connections (msg.arg 0) (msg.arg 1) (msg.arg 2))
  else (s, ⟨[], false⟩)

/-- Sending `msg` to the given windows in order, up to the first `send` that
throws. -/
def sendAll (sendThrows : Handle → IpcMessage → Bool) (msg : IpcMessage) : List Handle → Outcome
  | [] => ⟨[], false⟩
  | w :: ws =>
    if sendThrows w msg then ⟨[], true⟩
    else ⟨Effect.winSend w msg :: (sendAll sendThrows msg ws).effects,
      (sendAll sendThrows msg ws).threw⟩

/-- The windows registered under the keys that pass `test`, in the order of
`Object.keys`. -/
def JSObject.targets (o : JSObject Handle) (test : String → Bool) : List Handle :=
  (o.keys.filter test).filterMap o.get

/-! ## End-to-end delivery -/

/-- The processes of the system: the coordinator and one renderer per window. -/
inductive Process where
  | main
  | renderer (win : Handle)
  deriving DecidableEq, Repr

/-- Delivery of the coordinator's outbound messages: the renderer behind the
window runs its listener. -/
def deliverToRenderers (effects : List Effect) : List (Process × Effect) :=
  effects.flatMap fun e =>
    match e with
    | Effect.winSend win msg => (rendererReceive msg).map (fun x => (Process.renderer win, x))
    | _ => []

/-- Delivery of a renderer's outbound messages to the coordinator, and of the
messages the coordinator sends in turn. -/
def deliverToMain (sendThrows : Handle → IpcMessage → Bool) (s : MainState) (sender : Handle)
    (effects : List Effect) : List (Process × Effect) :=
  effects.flatMap fun e =>
    match e with
    | Effect.ipcRendererSend msg =>
      let o := (mainReceive sendThrows s sender msg).2
      o.effects.map (fun x => (Process.main, x)) ++ deliverToRenderers o.effects
    | _ => []

/-- One call of the intercepted `store.commit(type, payload)` in the renderer
behind `win`, whose process id is `pid`, followed by the delivery of all
resulting messages: every effect, with the process it took place in. -/
def commitRoundTrip (rendererSendThrows : IpcMessage → Bool)
    (mainSendThrows : Handle → IpcMessage → Bool) (s : MainState) (win : Handle) (pid : Int)
    (type payload : JSVal) : List (Process × Effect) :=
  let o := rendererCommit rendererSendThrows pid type payload
  o.effects.map (fun x => (Process.renderer win, x)) ++ deliverToMain mainSendThrows s win o.effects

/-- Whether an effect is an invocation of the original commit. -/
def Effect.isOriginalCommit : Effect → Bool
  | Effect.originalCommit _ _ => true
  | _ => false

/-- Whether an effect is a message sent to the window `win`. -/
def Effect.isSendTo (win : Handle) : Effect → Bool
  | Effect.winSend w _ => decide (w = win)
  | _ => false

/-- The windows an outcome sent a message to, in order. -/
def Outcome.recipients (o : Outcome) : List Handle :=
  o.effects.filterMap fun e =>
    match e with
    | Effect.winSend w _ => some w
    | _ => none

/-! ## Options and activation (lines 16-20, 22-37, 62-70, 83-85, 119-138) -/

/-- The options object. The two channel providers are opaque; `none` is a
missing (falsy) entry. -/
structure Options where
  type : JSVal
  ipcMain : Option Nat
  ipcRenderer : Option Nat
  syncStateOnRendererCreation : JSVal
  deriving DecidableEq, Repr

/-- The `ipcMain` imported from Electron. -/
def electronIpcMain : Nat := 0

/-- The `ipcRenderer` imported from Electron. -/
def electronIpcRenderer : Nat := 1

/-- What sits in `store.commit` or `store.dispatch`. -/
inductive EntryPoint where
  /-- The store's own method, as it was before the plugin ran. -/
  | own
  /-- The override installed by `rendererProcessLogic`. -/
  | rendererOverride
  /-- The override installed by `mainProcessLogic`. -/
  | mainOverride
  deriving DecidableEq, Repr

/-- The store, as far as the plugin touches it. -/
structure Store where
  state : JSVal
  commit : EntryPoint
  dispatch : EntryPoint
  originalCommit : Option EntryPoint
  originalDispatch : Option EntryPoint
  deriving DecidableEq, Repr

/-- Everything the plugin can change in its process. -/
structure World where
  options : Options
  store : Store
  /-- Channels given a listener through `options.ipcMain.on`, in order. -/
  ipcMainListeners : List String
  /-- Channels given a listener through `options.ipcRenderer.on`, in order. -/
  ipcRendererListeners : List String
  /-- Messages `options.ipcRenderer.send` and `sendSync` have sent, in order. -/
  sent : List IpcMessage
  deriving DecidableEq, Repr

/-- The environment of a renderer. -/
structure RendererEnv where
  /-- The value of `process.pid`. -/
  pid : Int
  /-- Whether `ipcRenderer.send` throws on this message. -/
  sendThrows : IpcMessage → Bool
  /-- The value `ipcRenderer.sendSync` returns; `none` when it throws. -/
  sendSync : IpcMessage → Option JSVal
  /-- Whether `store.replaceState` throws on this value. -/
  replaceStateThrows : JSVal → Bool

/-- The errors that leave the plugin. -/
inductive PluginError where
  /-- The error thrown by `activatePlugin`: type should be "renderer" or "main". -/
  | configuration
  /-- The error thrown by `rendererProcessLogic`: could not synchronize. -/
  | synchronization
  /-- An exception of `ipcRenderer.send`, passed on unchanged. -/
  | channel
  deriving DecidableEq, Repr

/-- The method `loadOptions`, given the value of `process.type`. -/
def loadOptions (processType : JSVal) (o : Options) : Options :=
  let o1 : Options :=
    if truthy o.type = false then
      { o with type :=
          if processType = JSVal.string "renderer" then JSVal.string "renderer"
          else JSVal.string "main" }
    else o
  let o2 : Options :=
    if o1.ipcMain.isNone then { o1 with ipcMain := some electronIpcMain } else o1
  if o2.ipcRenderer.isNone then { o2 with ipcRenderer := some electronIpcRenderer } else o2

/-- The method `rendererProcessLogic` (lines 22-60). -/
def rendererProcessLogic (env : RendererEnv) (w : World) : World × Option PluginError :=
  let connect : IpcMessage := ⟨IPC_EVENT_CONNECT, [JSVal.number env.pid]⟩
  if env.sendThrows connect then (w, some PluginError.channel)
  else
    let w1 : World := { w with sent := w.sent ++ [connect] }
    let install (v : World) : World :=
      { v with
        store :=
          { v.store with
            originalCommit := some v.store.commit
            originalDispatch := some v.store.dispatch
            commit := EntryPoint.rendererOverride
            dispatch := EntryPoint.rendererOverride }
        ipcRendererListeners :=
          v.ipcRendererListeners ++ [IPC_EVENT_MAIN_SEND_COMMIT, IPC_EVENT_MAIN_SEND_DISPATCH] }
    if w.options.syncStateOnRendererCreation = JSVal.boolean true then
      let request : IpcMessage := ⟨IPC_EVENT_REQUEST_STATE, []⟩
      match env.sendSync request with
      | none => (w1, some PluginError.synchronization)
      | some response =>
        let w2 : World := { w1 with sent := w1.sent ++ [request] }
        if env.replaceStateThrows response then (w2, some PluginError.synchronization)
        else (install { w2 with store := { w2.store with state := response } }, none)
    else (install w1, none)

/-- The `IPC_EVENT_REQUEST_STATE` handler of the coordinator (lines 67-69):
`event.returnValue = this.store.state`. -/
def mainRequestState (store : Store) : JSVal := store.state

/-- The method `mainProcessLogic` (lines 62-117): the listeners it registers and
the overrides it installs; the registry starts as `MainState.init`. -/
def mainProcessLogic (w : World) : World :=
  let l1 : List String :=
    if w.options.syncStateOnRendererCreation = JSVal.boolean true then
      w.ipcMainListeners ++ [IPC_EVENT_REQUEST_STATE]
    else w.ipcMainListeners
  { w with
    ipcMainListeners :=
      l1 ++ [IPC_EVENT_CONNECT, IPC_EVENT_RENDERER_SEND_COMMIT, IPC_EVENT_RENDERER_SEND_DISPATCH]
    store :=
      { w.store with
        originalCommit := some w.store.commit
        originalDispatch := some w.store.dispatch
        commit := EntryPoint.mainOverride
        dispatch := EntryPoint.mainOverride } }

/-- The method `activatePlugin` (lines 119-130). -/
def activatePlugin (env : RendererEnv) (w : World) : World × Option PluginError :=
  if w.options.type = JSVal.string "renderer" then rendererProcessLogic env w
  else if w.options.type = JSVal.string "main" then (mainProcessLogic w, none)
  else (w, some PluginError.configuration)

/-- The exported plugin (lines 133-138): `loadOptions` then `activatePlugin`. -/
def plugin (env : RendererEnv) (processType : JSVal) (w : World) : World × Option PluginError :=
  activatePlugin env { w with options := loadOptions processType w.options }

/-! # Theorems -/

/-! ## Round trip of `Number::toString` and `parseInt` -/

theorem charDigit_digitChar (d : Nat) (h : d < 10) : charDigit (digitChar d) = some d := by
  interval_cases d <;> decide

theorem isJSWhitespace_digitChar (d : Nat) : isJSWhitespace (digitChar d) = false := by
  unfold digitChar
  split <;> decide

theorem digitChar_ne_sign (d : Nat) : digitChar d ≠ '+' ∧ digitChar d ≠ '-' := by
  unfold digitChar
  split <;> decide

theorem spanDigits_allDigits (cs : List Char) (ds : List Nat) (h : AllDigits cs ds) :
    spanDigits cs = (ds, []) := by
  induction h with
  | nil => rfl
  | cons hcd _ ih => simp [spanDigits, hcd, ih]

theorem digitsValue_cons (d : Nat) (ds : List Nat) :
    digitsValue (d :: ds) = d * 10 ^ ds.length + digitsValue ds := by
  unfold digitsValue
  have key : ∀ (l : List Nat) (a : Nat),
      l.foldl (fun acc d => 10 * acc + d) a
        = a * 10 ^ l.length + l.foldl (fun acc d => 10 * acc + d) 0 := by
    intro l
    induction l with
    | nil => intro a; simp
    | cons x xs ih =>
      intro a
      simp only [List.foldl_cons, List.length_cons]
      rw [ih (10 * a + x), ih (10 * 0 + x)]
      ring
  simp only [List.foldl_cons]
  rw [key ds (10 * 0 + d)]
  ring_nf

theorem natToDigitsAux_spec (fuel : Nat) :
    ∀ (n : Nat) (acc : List Char) (ds : List Nat), n < fuel → AllDigits acc ds →
      ∃ ds', AllDigits (natToDigitsAux fuel n acc) ds' ∧
        ds'.length > 0 ∧
        digitsValue ds' = n * 10 ^ ds.length + digitsValue ds := by
  induction fuel with
  | zero => intro n acc ds h; omega
  | succ fuel ih =>
    intro n acc ds hn hacc
    have hmod : n % 10 < 10 := Nat.mod_lt _ (by decide)
    have hcons : AllDigits (digitChar (n % 10) :: acc) (n % 10 :: ds) :=
      List.Forall₂.cons (charDigit_digitChar _ hmod) hacc
    unfold natToDigitsAux
    by_cases hz : n / 10 = 0
    · rw [if_pos hz]
      refine ⟨n % 10 :: ds, hcons, by simp, ?_⟩
      rw [digitsValue_cons]
      have : n % 10 = n := by omega
      rw [this]
    · rw [if_neg hz]
      have hlt : n / 10 < fuel := by omega
      obtain ⟨ds', h1, h2, h3⟩ := ih (n / 10) _ _ hlt hcons
      refine ⟨ds', h1, h2, ?_⟩
      rw [h3, digitsValue_cons, List.length_cons, pow_succ]
      have hdm : n = 10 * (n / 10) + n % 10 := (Nat.div_add_mod n 10).symm
      generalize n / 10 = q at *
      generalize n % 10 = r at *
      subst hdm
      ring

theorem natToChars_spec (n : Nat) :
    ∃ ds, AllDigits (natToChars n) ds ∧ ds.length > 0 ∧ digitsValue ds = n := by
  obtain ⟨ds, h1, h2, h3⟩ :=
    natToDigitsAux_spec (n + 1) n [] [] (Nat.lt_succ_self n) List.Forall₂.nil
  exact ⟨ds, h1, h2, by simpa [digitsValue] using h3⟩

theorem natToChars_head (n : Nat) :
    ∃ d rest, natToChars n = digitChar d :: rest := by
  unfold natToChars
  have key : ∀ (fuel n : Nat) (acc : List Char), 0 < fuel →
      ∃ d rest, natToDigitsAux fuel n acc = digitChar d :: rest := by
    intro fuel
    induction fuel with
    | zero => intro n acc h; omega
    | succ fuel ih =>
      intro n acc _
      unfold natToDigitsAux
      by_cases hz : n / 10 = 0
      · rw [if_pos hz]; exact ⟨_, _, rfl⟩
      · rw [if_neg hz]
        cases fuel with
        | zero => exact ⟨n % 10, acc, rfl⟩
        | succ f => exact ih _ _ (Nat.succ_pos f)
  exact key (n + 1) n [] (Nat.succ_pos n)


theorem parseIntChars_natToChars (n : Nat) : parseIntChars (natToChars n) = some (n : Int) := by
  obtain ⟨ds, hall, hlen, hval⟩ := natToChars_spec n
  obtain ⟨d, rest, hhead⟩ := natToChars_head n
  have hspan := spanDigits_allDigits _ _ hall
  have hne : ds ≠ [] := by
    intro h; rw [h] at hlen; simp at hlen
  rw [hhead] at hspan
  have hws := isJSWhitespace_digitChar d
  obtain ⟨hp, hm⟩ := digitChar_ne_sign d
  rw [hhead]
  simp [parseIntChars, trimStart, hws, hp, hm, hspan, hne, hval]

theorem parseIntChars_neg_natToChars (n : Nat) :
    parseIntChars ('-' :: natToChars n) = some (-(n : Int)) := by
  obtain ⟨ds, hall, hlen, hval⟩ := natToChars_spec n
  have hspan := spanDigits_allDigits _ _ hall
  have hne : ds ≠ [] := by
    intro h; rw [h] at hlen; simp at hlen
  have hws : isJSWhitespace '-' = false := by decide
  simp [parseIntChars, trimStart, hws, hspan, hne, hval]

/-- Parsing the decimal string of an integer gives the integer back. -/
theorem parseInt10_numberToString (n : Int) : parseInt10 (numberToString n) = some n := by
  cases n with
  | ofNat m => simpa [parseInt10, numberToString] using parseIntChars_natToChars m
  | negSucc m =>
    have h := parseIntChars_neg_natToChars (m + 1)
    simp only [parseInt10, numberToString]
    rw [h]
    rfl

theorem numberToString_injective {a b : Int} (h : numberToString a = numberToString b) :
    a = b := by
  have ha := parseInt10_numberToString a
  rw [h, parseInt10_numberToString b] at ha
  exact (Option.some.inj ha).symm

/-! ## Objects -/

namespace JSObject

variable {α : Type}

theorem mem_of_get {o : JSObject α} {k : String} {v : α} (h : o.get k = some v) :
    (k, v) ∈ o := by
  induction o with
  | nil => simp [get] at h
  | cons e rest ih =>
    unfold get at h
    by_cases hk : e.1 = k
    · rw [if_pos hk] at h
      have hv : e.2 = v := Option.some.inj h
      have : e = (k, v) := Prod.ext hk hv
      rw [this]; exact List.mem_cons_self _ _
    · rw [if_neg hk] at h
      exact List.mem_cons_of_mem _ (ih h)

theorem get_of_mem {o : JSObject α} (hwf : o.WF) {k : String} {v : α} (h : (k, v) ∈ o) :
    o.get k = some v := by
  induction o with
  | nil => simp at h
  | cons e rest ih =>
    unfold WF at hwf
    rw [List.map_cons, List.nodup_cons] at hwf
    unfold get
    rcases List.mem_cons.mp h with heq | hmem
    · rw [← heq]; simp
    · have hne : e.1 ≠ k := by
        intro hk
        apply hwf.1
        rw [hk]
        exact List.mem_map_of_mem Prod.fst hmem
      rw [if_neg hne]
      exact ih hwf.2 hmem

theorem get_isSome_of_mem_fst {o : JSObject α} {k : String} (h : k ∈ o.map Prod.fst) :
    ∃ v, o.get k = some v := by
  induction o with
  | nil => simp at h
  | cons e rest ih =>
    unfold get
    by_cases hk : e.1 = k
    · exact ⟨e.2, by rw [if_pos hk]⟩
    · rw [if_neg hk]
      rw [List.map_cons, List.mem_cons] at h
      rcases h with h | h
      · exact absurd h.symm hk
      · exact ih h

theorem get_eq_none {o : JSObject α} {k : String} (h : k ∉ o.map Prod.fst) : o.get k = none := by
  cases hg : o.get k with
  | none => rfl
  | some v => exact absurd (List.mem_map_of_mem Prod.fst (mem_of_get hg)) h

theorem keys_perm (o : JSObject α) : List.Perm o.keys (o.map Prod.fst) := by
  unfold keys
  have h1 := List.perm_insertionSort indexLe
    ((o.map Prod.fst).filter (fun k => (arrayIndex k).isSome))
  have h2 : List.Perm
      (((o.map Prod.fst).filter (fun k => (arrayIndex k).isSome))
        ++ (o.map Prod.fst).filter (fun k => (arrayIndex k).isNone))
      (o.map Prod.fst) := by
    have h3 := List.filter_append_perm (fun k => (arrayIndex k).isSome) (o.map Prod.fst)
    have h4 : (fun k : String => (arrayIndex k).isNone) = (fun k => !(arrayIndex k).isSome) := by
      funext k; cases arrayIndex k <;> rfl
    rw [h4]
    exact h3
  exact (List.Perm.append_right _ h1).trans h2

theorem mem_keys {o : JSObject α} {k : String} : k ∈ o.keys ↔ k ∈ o.map Prod.fst :=
  (keys_perm o).mem_iff

theorem keys_nodup {o : JSObject α} (hwf : o.WF) : o.keys.Nodup :=
  (keys_perm o).nodup_iff.mpr hwf

/-! ### Assignment -/

theorem map_fst_set (o : JSObject α) (k : String) (v : α) :
    (o.set k v).map Prod.fst =
      if k ∈ o.map Prod.fst then o.map Prod.fst else o.map Prod.fst ++ [k] := by
  induction o with
  | nil => simp [set]
  | cons e rest ih =>
    unfold set
    by_cases hk : e.1 = k
    · rw [if_pos hk]
      simp [hk]
    · rw [if_neg hk, List.map_cons, ih]
      have hk2 : ¬ k = e.1 := fun h => hk h.symm
      by_cases hm : k ∈ rest.map Prod.fst
      · simp [hm]
      · simp [hm, hk2]

theorem wf_set {o : JSObject α} (hwf : o.WF) (k : String) (v : α) : (o.set k v).WF := by
  unfold WF at *
  rw [map_fst_set]
  by_cases hm : k ∈ o.map Prod.fst
  · rw [if_pos hm]; exact hwf
  · rw [if_neg hm]
    rw [List.nodup_append]
    refine ⟨hwf, List.nodup_singleton k, ?_⟩
    intro a ha hb
    rw [List.mem_singleton] at hb
    exact hm (hb ▸ ha)

theorem get_set_self (o : JSObject α) (k : String) (v : α) : (o.set k v).get k = some v := by
  induction o with
  | nil => simp [set, get]
  | cons e rest ih =>
    unfold set
    by_cases hk : e.1 = k
    · rw [if_pos hk]; simp [get]
    · rw [if_neg hk]; unfold get; rw [if_neg hk]; exact ih

theorem get_set_ne (o : JSObject α) {k k2 : String} (v : α) (h : k2 ≠ k) :
    (o.set k v).get k2 = o.get k2 := by
  induction o with
  | nil => simp [set, get, h.symm]
  | cons e rest ih =>
    unfold set
    by_cases hk : e.1 = k
    · rw [if_pos hk]
      have h1 : ¬ e.1 = k2 := by rw [hk]; exact h.symm
      have h2 : ¬ k = k2 := h.symm
      simp [get, h1, h2]
    · rw [if_neg hk]
      by_cases hk2 : e.1 = k2
      · simp [get, hk2]
      · simp [get, hk2, ih]

theorem mem_set_cases {o : JSObject α} {k : String} {v : α} {e : String × α}
    (h : e ∈ o.set k v) : e = (k, v) ∨ e ∈ o := by
  induction o with
  | nil =>
    simp only [set, List.mem_singleton] at h
    exact Or.inl h
  | cons x rest ih =>
    unfold set at h
    by_cases hk : x.1 = k
    · rw [if_pos hk] at h
      rcases List.mem_cons.mp h with h | h
      · exact Or.inl h
      · exact Or.inr (List.mem_cons_of_mem _ h)
    · rw [if_neg hk] at h
      rcases List.mem_cons.mp h with h | h
      · exact Or.inr (h ▸ List.mem_cons_self _ _)
      · rcases ih h with h | h
        · exact Or.inl h
        · exact Or.inr (List.mem_cons_of_mem _ h)

theorem filter_ne_set (o : JSObject α) (k : String) (v : α) :
    (o.set k v).filter (fun e => decide (e.1 ≠ k)) = o.filter (fun e => decide (e.1 ≠ k)) := by
  induction o with
  | nil => simp [set]
  | cons x rest ih =>
    unfold set
    by_cases hk : x.1 = k
    · rw [if_pos hk]
      simp [List.filter_cons, hk]
    · rw [if_neg hk]
      simp only [List.filter_cons, ih]

theorem filter_eq_set {o : JSObject α} (hwf : o.WF) (k : String) (v : α) :
    (o.set k v).filter (fun e => decide (e.1 = k)) = [(k, v)] := by
  induction o with
  | nil => simp [set]
  | cons x rest ih =>
    unfold WF at hwf
    rw [List.map_cons, List.nodup_cons] at hwf
    unfold set
    by_cases hk : x.1 = k
    · rw [if_pos hk]
      have hrest : rest.filter (fun e => decide (e.1 = k)) = [] := by
        rw [List.filter_eq_nil_iff]
        intro e he
        have hne : e.1 ≠ k := by
          intro h
          apply hwf.1
          rw [hk, ← h]
          exact List.mem_map_of_mem Prod.fst he
        simpa using hne
      simp [List.filter_cons, hrest]
    · rw [if_neg hk]
      simp only [List.filter_cons, hk, decide_False, Bool.false_eq_true, if_false]
      exact ih hwf.2

/-! ### Deletion -/

theorem mem_delete {o : JSObject α} {k : String} {e : String × α} :
    e ∈ o.delete k ↔ e ∈ o ∧ e.1 ≠ k := by
  simp [delete, List.mem_filter]

theorem wf_delete {o : JSObject α} (hwf : o.WF) (k : String) : (o.delete k).WF := by
  unfold WF delete at *
  exact (List.Nodup.sublist (List.Sublist.map _ (List.filter_sublist _)) hwf)

theorem get_delete_self (o : JSObject α) (k : String) : (o.delete k).get k = none := by
  apply get_eq_none
  intro h
  obtain ⟨e, he, hk⟩ := List.mem_map.mp h
  exact (mem_delete.mp he).2 hk

end JSObject

/-! ## The broadcast loop -/

theorem sendAll_ok (sendThrows : Handle → IpcMessage → Bool) (msg : IpcMessage)
    (ws : List Handle) (h : ∀ w ∈ ws, sendThrows w msg = false) :
    sendAll sendThrows msg ws = ⟨ws.map (fun w => Effect.winSend w msg), false⟩ := by
  induction ws with
  | nil => rfl
  | cons w ws ih =>
    have hw := h w (List.mem_cons_self _ _)
    have ih2 := ih (fun x hx => h x (List.mem_cons_of_mem _ hx))
    simp [sendAll, hw, ih2]

theorem sendAll_throw (sendThrows : Handle → IpcMessage → Bool) (msg : IpcMessage)
    (pre : List Handle) (w : Handle) (post : List Handle)
    (hpre : ∀ x ∈ pre, sendThrows x msg = false) (hw : sendThrows w msg = true) :
    sendAll sendThrows msg (pre ++ w :: post)
      = ⟨pre.map (fun x => Effect.winSend x msg), true⟩ := by
  induction pre with
  | nil => simp [sendAll, hw]
  | cons x pre ih =>
    have hx := hpre x (List.mem_cons_self _ _)
    have ih2 := ih (fun y hy => hpre y (List.mem_cons_of_mem _ hy))
    simp [sendAll, hx, ih2]

theorem broadcast_eq_sendAll (sendThrows : Handle → IpcMessage → Bool) (o : JSObject Handle)
    (test : String → Bool) (msg : IpcMessage) (ks : List String)
    (hks : ∀ k ∈ ks, k ∈ o.map Prod.fst) :
    broadcast sendThrows o test msg ks
      = sendAll sendThrows msg ((ks.filter test).filterMap o.get) := by
  induction ks with
  | nil => rfl
  | cons k ks ih =>
    have ih2 := ih (fun x hx => hks x (List.mem_cons_of_mem _ hx))
    obtain ⟨w, hw⟩ := JSObject.get_isSome_of_mem_fst (hks k (List.mem_cons_self _ _))
    unfold broadcast
    by_cases ht : test k = true
    · rw [if_pos ht, hw]
      simp only [List.filter_cons, ht, if_true, List.filterMap_cons, hw]
      simp only [sendAll, ih2]
    · rw [if_neg ht]
      simp only [List.filter_cons, ht, if_false]
      exact ih2

theorem broadcast_keys (sendThrows : Handle → IpcMessage → Bool) (o : JSObject Handle)
    (test : String → Bool) (msg : IpcMessage) :
    broadcast sendThrows o test msg o.keys = sendAll sendThrows msg (o.targets test) :=
  broadcast_eq_sendAll sendThrows o test msg o.keys (fun _ hk => JSObject.mem_keys.mp hk)

theorem filterMap_get_of_subset {o : JSObject Handle} (hwf : o.WF) (test : String → Bool)
    (l : List (String × Handle)) (hl : ∀ e ∈ l, e ∈ o) :
    ((l.map Prod.fst).filter test).filterMap o.get
      = (l.filter (fun e => test e.1)).map Prod.snd := by
  induction l with
  | nil => rfl
  | cons e l ih =>
    have ih2 := ih (fun x hx => hl x (List.mem_cons_of_mem _ hx))
    have hg : o.get e.1 = some e.2 := JSObject.get_of_mem hwf (hl e (List.mem_cons_self _ _))
    by_cases ht : test e.1 = true
    · simp only [List.map_cons, List.filter_cons, ht, if_true, List.filterMap_cons, hg, ih2]
    · have hf : test e.1 = false := by simpa using ht
      simp [List.filter_cons, hf, ih2]

/-- The windows a broadcast reaches are, up to order, those of the entries whose
key passes the test. -/
theorem targets_perm {o : JSObject Handle} (hwf : o.WF) (test : String → Bool) :
    List.Perm (o.targets test) ((o.filter (fun e => test e.1)).map Prod.snd) := by
  unfold JSObject.targets
  have h1 : List.Perm ((o.keys.filter test).filterMap o.get)
      (((o.map Prod.fst).filter test).filterMap o.get) :=
    List.Perm.filterMap _ (List.Perm.filter _ (JSObject.keys_perm o))
  rw [filterMap_get_of_subset hwf test o (fun _ h => h)] at h1
  exact h1

theorem targets_subset (o : JSObject Handle) (test : String → Bool) (w : Handle)
    (h : w ∈ o.targets test) : ∃ k, test k = true ∧ (k, w) ∈ o := by
  unfold JSObject.targets at h
  obtain ⟨k, hk, hg⟩ := List.mem_filterMap.mp h
  exact ⟨k, (List.mem_filter.mp hk).2, JSObject.mem_of_get hg⟩

/-! ## The exclusion tests on integer keys -/

theorem looseNe_number (n m : Int) :
    looseNe (parseInt10 (numberToString n)) (JSVal.number m)
      = decide (numberToString n ≠ numberToString m) := by
  rw [parseInt10_numberToString]
  simp only [looseNe]
  by_cases h : n = m
  · subst h; simp
  · have h2 : numberToString n ≠ numberToString m := fun e => h (numberToString_injective e)
    simp [h, h2]

theorem strictNe_number (n m : Int) :
    strictNe (parseInt10 (numberToString n)) (JSVal.number m)
      = decide (numberToString n ≠ numberToString m) := by
  rw [parseInt10_numberToString]
  simp only [strictNe]
  by_cases h : n = m
  · subst h; simp
  · have h2 : numberToString n ≠ numberToString m := fun e => h (numberToString_injective e)
    simp [h, h2]

theorem looseNe_undefined (x : Option Int) : looseNe x JSVal.undefined = true := by
  cases x <;> rfl

theorem strictNe_undefined (x : Option Int) : strictNe x JSVal.undefined = true := by
  cases x <;> rfl

theorem filter_test_number {o : JSObject Handle}
    (hint : ∀ e ∈ o, ∃ n : Int, e.1 = numberToString n) (m : Int) :
    o.filter (fun e => looseNe (parseInt10 e.1) (JSVal.number m))
      = o.filter (fun e => decide (e.1 ≠ numberToString m)) := by
  apply List.filter_congr
  intro e he
  obtain ⟨n, hn⟩ := hint e he
  rw [hn, looseNe_number]

theorem filter_test_undefined (o : JSObject Handle) :
    o.filter (fun e => looseNe (parseInt10 e.1) JSVal.undefined) = o := by
  rw [List.filter_eq_self]
  intro e _
  exact looseNe_undefined _

/-! ## The coordinator's overrides -/

theorem mainCommit_eq (sendThrows : Handle → IpcMessage → Bool) (o : JSObject Handle)
    (type payload pid : JSVal) :
    mainCommit sendThrows o type payload pid =
      if (sendAll sendThrows ⟨IPC_EVENT_MAIN_SEND_COMMIT, [type, payload]⟩
            (o.targets (fun k => looseNe (parseInt10 k) pid))).threw
      then sendAll sendThrows ⟨IPC_EVENT_MAIN_SEND_COMMIT, [type, payload]⟩
            (o.targets (fun k => looseNe (parseInt10 k) pid))
      else ⟨(sendAll sendThrows ⟨IPC_EVENT_MAIN_SEND_COMMIT, [type, payload]⟩
            (o.targets (fun k => looseNe (parseInt10 k) pid))).effects
              ++ [Effect.originalCommit type payload], false⟩ := by
  unfold mainCommit
  rw [broadcast_keys]

theorem mainDispatch_eq (sendThrows : Handle → IpcMessage → Bool) (o : JSObject Handle)
    (type payload pid : JSVal) :
    mainDispatch sendThrows o type payload pid =
      if (sendAll sendThrows ⟨IPC_EVENT_MAIN_SEND_DISPATCH, [type, payload]⟩
            (o.targets (fun k => strictNe (parseInt10 k) pid))).threw
      then sendAll sendThrows ⟨IPC_EVENT_MAIN_SEND_DISPATCH, [type, payload]⟩
            (o.targets (fun k => strictNe (parseInt10 k) pid))
      else ⟨(sendAll sendThrows ⟨IPC_EVENT_MAIN_SEND_DISPATCH, [type, payload]⟩
            (o.targets (fun k => strictNe (parseInt10 k) pid))).effects
              ++ [Effect.originalDispatch type payload], false⟩ := by
  unfold mainDispatch
  rw [broadcast_keys]

theorem mainCommit_ok (sendThrows : Handle → IpcMessage → Bool) (o : JSObject Handle)
    (type payload pid : JSVal)
    (h : ∀ w ∈ o.targets (fun k => looseNe (parseInt10 k) pid),
      sendThrows w ⟨IPC_EVENT_MAIN_SEND_COMMIT, [type, payload]⟩ = false) :
    mainCommit sendThrows o type payload pid =
      ⟨(o.targets (fun k => looseNe (parseInt10 k) pid)).map
          (fun w => Effect.winSend w ⟨IPC_EVENT_MAIN_SEND_COMMIT, [type, payload]⟩)
        ++ [Effect.originalCommit type payload], false⟩ := by
  rw [mainCommit_eq, sendAll_ok _ _ _ h]
  simp

theorem mainDispatch_ok (sendThrows : Handle → IpcMessage → Bool) (o : JSObject Handle)
    (type payload pid : JSVal)
    (h : ∀ w ∈ o.targets (fun k => strictNe (parseInt10 k) pid),
      sendThrows w ⟨IPC_EVENT_MAIN_SEND_DISPATCH, [type, payload]⟩ = false) :
    mainDispatch sendThrows o type payload pid =
      ⟨(o.targets (fun k => strictNe (parseInt10 k) pid)).map
          (fun w => Effect.winSend w ⟨IPC_EVENT_MAIN_SEND_DISPATCH, [type, payload]⟩)
        ++ [Effect.originalDispatch type payload], false⟩ := by
  rw [mainDispatch_eq, sendAll_ok _ _ _ h]
  simp

theorem mainCommit_throw (sendThrows : Handle → IpcMessage → Bool) (o : JSObject Handle)
    (type payload pid : JSVal) (pre : List Handle) (w : Handle) (post : List Handle)
    (hsplit : o.targets (fun k => looseNe (parseInt10 k) pid) = pre ++ w :: post)
    (hpre : ∀ x ∈ pre, sendThrows x ⟨IPC_EVENT_MAIN_SEND_COMMIT, [type, payload]⟩ = false)
    (hw : sendThrows w ⟨IPC_EVENT_MAIN_SEND_COMMIT, [type, payload]⟩ = true) :
    mainCommit sendThrows o type payload pid =
      ⟨pre.map (fun x => Effect.winSend x ⟨IPC_EVENT_MAIN_SEND_COMMIT, [type, payload]⟩), true⟩ := by
  rw [mainCommit_eq, hsplit, sendAll_throw _ _ _ _ _ hpre hw]
  simp

theorem mainDispatch_throw (sendThrows : Handle → IpcMessage → Bool) (o : JSObject Handle)
    (type payload pid : JSVal) (pre : List Handle) (w : Handle) (post : List Handle)
    (hsplit : o.targets (fun k => strictNe (parseInt10 k) pid) = pre ++ w :: post)
    (hpre : ∀ x ∈ pre, sendThrows x ⟨IPC_EVENT_MAIN_SEND_DISPATCH, [type, payload]⟩ = false)
    (hw : sendThrows w ⟨IPC_EVENT_MAIN_SEND_DISPATCH, [type, payload]⟩ = true) :
    mainDispatch sendThrows o type payload pid =
      ⟨pre.map (fun x => Effect.winSend x ⟨IPC_EVENT_MAIN_SEND_DISPATCH, [type, payload]⟩),
        true⟩ := by
  rw [mainDispatch_eq, hsplit, sendAll_throw _ _ _ _ _ hpre hw]
  simp

/-! ## Recipients of a broadcast -/

/-- C2. For a registry whose keys are the decimal strings of integer process
ids and whose windows accept the message, the coordinator's intercepted
`store.commit(type, payload, pid)` sends the envelope `(type, payload)`, which
carries no origin id, once for each entry whose key is not `pid`, sends nothing
for the entry under `pid`, and then applies the commit locally; with `pid`
absent it sends the envelope once for every entry. -/
theorem commit_broadcast_recipients (sendThrows : Handle → IpcMessage → Bool)
    (connections : JSObject Handle) (type payload : JSVal)
    (hwf : connections.WF)
    (hint : ∀ e ∈ connections, ∃ n : Int, e.1 = numberToString n)
    (hok : ∀ e ∈ connections,
      sendThrows e.2 ⟨IPC_EVENT_MAIN_SEND_COMMIT, [type, payload]⟩ = false) :
    (∀ pid : Int, ∃ ws : List Handle,
      mainCommit sendThrows connections type payload (JSVal.number pid)
        = ⟨ws.map (fun w => Effect.winSend w ⟨IPC_EVENT_MAIN_SEND_COMMIT, [type, payload]⟩)
            ++ [Effect.originalCommit type payload], false⟩
      ∧ List.Perm ws
          ((connections.filter (fun e => decide (e.1 ≠ numberToString pid))).map Prod.snd))
    ∧ (∃ ws : List Handle,
      mainCommit sendThrows connections type payload JSVal.undefined
        = ⟨ws.map (fun w => Effect.winSend w ⟨IPC_EVENT_MAIN_SEND_COMMIT, [type, payload]⟩)
            ++ [Effect.originalCommit type payload], false⟩
      ∧ List.Perm ws (connections.map Prod.snd)) := by
  have hsend : ∀ (pid : JSVal), ∀ w ∈ connections.targets (fun k => looseNe (parseInt10 k) pid),
      sendThrows w ⟨IPC_EVENT_MAIN_SEND_COMMIT, [type, payload]⟩ = false := by
    intro pid w hw
    obtain ⟨k, _, hmem⟩ := targets_subset _ _ _ hw
    exact hok (k, w) hmem
  constructor
  · intro pid
    refine ⟨_, mainCommit_ok sendThrows connections type payload _ (hsend _), ?_⟩
    have h := targets_perm hwf (fun k => looseNe (parseInt10 k) (JSVal.number pid))
    rw [filter_test_number hint] at h
    exact h
  · refine ⟨_, mainCommit_ok sendThrows connections type payload _ (hsend _), ?_⟩
    have h := targets_perm hwf (fun k => looseNe (parseInt10 k) JSVal.undefined)
    rw [filter_test_undefined] at h
    exact h

theorem commit_broadcast_recipients_witness :
    JSObject.WF ([("1", 10), ("2", 20), ("3", 30)] : JSObject Handle)
    ∧ (∃ ws : List Handle,
      mainCommit (fun _ _ => false) [("1", 10), ("2", 20), ("3", 30)] (JSVal.string "inc")
          (JSVal.number 1) (JSVal.number 2)
        = ⟨ws.map (fun w => Effect.winSend w
              ⟨IPC_EVENT_MAIN_SEND_COMMIT, [JSVal.string "inc", JSVal.number 1]⟩)
            ++ [Effect.originalCommit (JSVal.string "inc") (JSVal.number 1)], false⟩
      ∧ List.Perm ws
          ((([("1", 10), ("2", 20), ("3", 30)] : JSObject Handle).filter
            (fun e => decide (e.1 ≠ numberToString 2))).map Prod.snd)) :=
  ⟨by decide,
    (commit_broadcast_recipients (fun _ _ => false) [("1", 10), ("2", 20), ("3", 30)]
      (JSVal.string "inc") (JSVal.number 1) (by decide)
      (by
        intro e he
        simp only [List.mem_cons, List.mem_singleton, List.not_mem_nil, or_false] at he
        rcases he with rfl | rfl | rfl
        · exact ⟨1, by decide⟩
        · exact ⟨2, by decide⟩
        · exact ⟨3, by decide⟩)
      (by intro e _; rfl)).1 2⟩

/-! ## Local application in the renderer -/

/-- C3, as the claim states it, fails: when the outbound `send` throws, the
intercepted `store.commit` leaves with the exception and the original commit
is invoked zero times. -/
theorem renderer_commit_send_throws_no_local_application :
    (rendererCommit (fun _ => true) 1 (JSVal.string "inc") (JSVal.number 1)).threw = true
    ∧ (rendererCommit (fun _ => true) 1 (JSVal.string "inc") (JSVal.number 1)).effects.count
        (Effect.originalCommit (JSVal.string "inc") (JSVal.number 1)) = 0 := by
  decide

/-- C3, amended. A call of a renderer's intercepted `store.commit` or
`store.dispatch` whose outbound `send` returns invokes the original entry point
exactly once, with `(type, payload)`, after the message to the coordinator;
when the `send` throws, the call leaves with the exception and has neither sent
the message nor invoked the original entry point. -/
theorem renderer_local_application (sendThrows : IpcMessage → Bool) (pid : Int)
    (type payload : JSVal) :
    (sendThrows ⟨IPC_EVENT_RENDERER_SEND_COMMIT, [type, payload, JSVal.number pid]⟩ = false →
      rendererCommit sendThrows pid type payload
        = ⟨[Effect.ipcRendererSend
              ⟨IPC_EVENT_RENDERER_SEND_COMMIT, [type, payload, JSVal.number pid]⟩,
            Effect.originalCommit type payload], false⟩)
    ∧ (sendThrows ⟨IPC_EVENT_RENDERER_SEND_COMMIT, [type, payload, JSVal.number pid]⟩ = true →
      rendererCommit sendThrows pid type payload = ⟨[], true⟩)
    ∧ (sendThrows ⟨IPC_EVENT_RENDERER_SEND_DISPATCH, [type, payload, JSVal.number pid]⟩ = false →
      rendererDispatch sendThrows pid type payload
        = ⟨[Effect.ipcRendererSend
              ⟨IPC_EVENT_RENDERER_SEND_DISPATCH, [type, payload, JSVal.number pid]⟩,
            Effect.originalDispatch type payload], false⟩)
    ∧ (sendThrows ⟨IPC_EVENT_RENDERER_SEND_DISPATCH, [type, payload, JSVal.number pid]⟩ = true →
      rendererDispatch sendThrows pid type payload = ⟨[], true⟩) := by
  refine ⟨?_, ?_, ?_, ?_⟩ <;> intro h <;> simp [rendererCommit, rendererDispatch, h]

theorem renderer_local_application_witness :
    rendererCommit (fun _ => false) 7 (JSVal.string "inc") (JSVal.number 1)
        = ⟨[Effect.ipcRendererSend
              ⟨IPC_EVENT_RENDERER_SEND_COMMIT,
                [JSVal.string "inc", JSVal.number 1, JSVal.number 7]⟩,
            Effect.originalCommit (JSVal.string "inc") (JSVal.number 1)], false⟩
    ∧ rendererCommit (fun _ => true) 7 (JSVal.string "inc") (JSVal.number 1) = ⟨[], true⟩
    ∧ rendererDispatch (fun _ => false) 7 (JSVal.string "inc") (JSVal.number 1)
        = ⟨[Effect.ipcRendererSend
              ⟨IPC_EVENT_RENDERER_SEND_DISPATCH,
                [JSVal.string "inc", JSVal.number 1, JSVal.number 7]⟩,
            Effect.originalDispatch (JSVal.string "inc") (JSVal.number 1)], false⟩
    ∧ rendererDispatch (fun _ => true) 7 (JSVal.string "inc") (JSVal.number 1) = ⟨[], true⟩ :=
  ⟨(renderer_local_application (fun _ => false) 7 (JSVal.string "inc") (JSVal.number 1)).1 rfl,
    (renderer_local_application (fun _ => true) 7 (JSVal.string "inc") (JSVal.number 1)).2.1 rfl,
    (renderer_local_application (fun _ => false) 7 (JSVal.string "inc")
      (JSVal.number 1)).2.2.1 rfl,
    (renderer_local_application (fun _ => true) 7 (JSVal.string "inc")
      (JSVal.number 1)).2.2.2 rfl⟩

/-! ## A failing send during a broadcast -/

/-- C4, as the claim states it, fails: with windows `10` and `20` registered
under ids `1` and `2` and a `send` that throws on window `10` only, the
intercepted `store.commit` leaves with the exception, window `20` has received
nothing and the original commit has not been invoked. -/
theorem broadcast_failure_aborts_commit :
    (mainCommit (fun w _ => decide (w = 10)) [("1", 10), ("2", 20)] (JSVal.string "inc")
        (JSVal.number 1) JSVal.undefined).threw = true
    ∧ (mainCommit (fun w _ => decide (w = 10)) [("1", 10), ("2", 20)] (JSVal.string "inc")
        (JSVal.number 1) JSVal.undefined).recipients = []
    ∧ (mainCommit (fun w _ => decide (w = 10)) [("1", 10), ("2", 20)] (JSVal.string "inc")
        (JSVal.number 1) JSVal.undefined).effects.count
          (Effect.originalCommit (JSVal.string "inc") (JSVal.number 1)) = 0 := by
  decide

/-- C4, amended. The coordinator's intercepted `store.commit` and
`store.dispatch` send the envelope to the non-excluded registered windows in
the order of `Object.keys` and apply the mutation locally afterwards: when no
`send` throws, each of these windows receives the envelope once, the original
entry point is then invoked once and the call returns; when a `send` throws,
the windows before it have received the envelope, no later window receives it,
the original entry point is not invoked and the call leaves with the
exception. -/
theorem broadcast_stops_at_first_failure (sendThrows : Handle → IpcMessage → Bool)
    (connections : JSObject Handle) (type payload pid : JSVal) :
    ((∀ w ∈ connections.targets (fun k => looseNe (parseInt10 k) pid),
        sendThrows w ⟨IPC_EVENT_MAIN_SEND_COMMIT, [type, payload]⟩ = false) →
      mainCommit sendThrows connections type payload pid =
        ⟨(connections.targets (fun k => looseNe (parseInt10 k) pid)).map
            (fun w => Effect.winSend w ⟨IPC_EVENT_MAIN_SEND_COMMIT, [type, payload]⟩)
          ++ [Effect.originalCommit type payload], false⟩)
    ∧ (∀ (pre : List Handle) (w : Handle) (post : List Handle),
        connections.targets (fun k => looseNe (parseInt10 k) pid) = pre ++ w :: post →
        (∀ x ∈ pre, sendThrows x ⟨IPC_EVENT_MAIN_SEND_COMMIT, [type, payload]⟩ = false) →
        sendThrows w ⟨IPC_EVENT_MAIN_SEND_COMMIT, [type, payload]⟩ = true →
        mainCommit sendThrows connections type payload pid =
          ⟨pre.map (fun x => Effect.winSend x ⟨IPC_EVENT_MAIN_SEND_COMMIT, [type, payload]⟩),
            true⟩)
    ∧ ((∀ w ∈ connections.targets (fun k => strictNe (parseInt10 k) pid),
        sendThrows w ⟨IPC_EVENT_MAIN_SEND_DISPATCH, [type, payload]⟩ = false) →
      mainDispatch sendThrows connections type payload pid =
        ⟨(connections.targets (fun k => strictNe (parseInt10 k) pid)).map
            (fun w => Effect.winSend w ⟨IPC_EVENT_MAIN_SEND_DISPATCH, [type, payload]⟩)
          ++ [Effect.originalDispatch type payload], false⟩)
    ∧ (∀ (pre : List Handle) (w : Handle) (post : List Handle),
        connections.targets (fun k => strictNe (parseInt10 k) pid) = pre ++ w :: post →
        (∀ x ∈ pre, sendThrows x ⟨IPC_EVENT_MAIN_SEND_DISPATCH, [type, payload]⟩ = false) →
        sendThrows w ⟨IPC_EVENT_MAIN_SEND_DISPATCH, [type, payload]⟩ = true →
        mainDispatch sendThrows connections type payload pid =
          ⟨pre.map (fun x => Effect.winSend x ⟨IPC_EVENT_MAIN_SEND_DISPATCH, [type, payload]⟩),
            true⟩) :=
  ⟨mainCommit_ok sendThrows connections type payload pid,
    fun pre w post => mainCommit_throw sendThrows connections type payload pid pre w post,
    mainDispatch_ok sendThrows connections type payload pid,
    fun pre w post => mainDispatch_throw sendThrows connections type payload pid pre w post⟩

theorem broadcast_stops_at_first_failure_witness :
    mainCommit (fun _ _ => false) [("1", 10), ("2", 20), ("3", 30)] (JSVal.string "inc")
        (JSVal.number 1) (JSVal.number 3) =
      ⟨(JSObject.targets [("1", 10), ("2", 20), ("3", 30)]
            (fun k => looseNe (parseInt10 k) (JSVal.number 3))).map
          (fun w => Effect.winSend w
            ⟨IPC_EVENT_MAIN_SEND_COMMIT, [JSVal.string "inc", JSVal.number 1]⟩)
        ++ [Effect.originalCommit (JSVal.string "inc") (JSVal.number 1)], false⟩
    ∧ mainDispatch (fun w _ => decide (w = 20)) [("1", 10), ("2", 20), ("3", 30)]
        (JSVal.string "inc") (JSVal.number 1) JSVal.undefined =
      ⟨[10].map (fun x => Effect.winSend x
          ⟨IPC_EVENT_MAIN_SEND_DISPATCH, [JSVal.string "inc", JSVal.number 1]⟩), true⟩ :=
  ⟨(broadcast_stops_at_first_failure (fun _ _ => false) [("1", 10), ("2", 20), ("3", 30)]
      (JSVal.string "inc") (JSVal.number 1) (JSVal.number 3)).1 (by intro w _; rfl),
    (broadcast_stops_at_first_failure (fun w _ => decide (w = 20))
      [("1", 10), ("2", 20), ("3", 30)] (JSVal.string "inc") (JSVal.number 1)
      JSVal.undefined).2.2.2 [10] 20 [30] (by decide) (by decide) (by decide)⟩

/-! ## Commit against dispatch -/

/-- C10, as the claim states it, fails on a numeric string: with window `7`
registered under id `42` and the originating id given as the string `"42"`,
the intercepted `store.commit` excludes window `7` (`42 != "42"` is false) and
the intercepted `store.dispatch` sends to it (`42 !== "42"` is true). The
renderers of this file only ever send `process.pid`, a number. -/
theorem commit_dispatch_differ_on_numeric_string :
    (mainCommit (fun _ _ => false) [("42", 7)] (JSVal.string "inc") (JSVal.number 1)
        (JSVal.string "42")).recipients = []
    ∧ (mainDispatch (fun _ _ => false) [("42", 7)] (JSVal.string "inc") (JSVal.number 1)
        (JSVal.string "42")).recipients = [7] := by
  decide

/-- With an integer or absent originating id and integer registry keys, the two
overrides test every key alike. -/
theorem commit_dispatch_agree_on_integer (k : Int) :
    (∀ pid : Int, looseNe (parseInt10 (numberToString k)) (JSVal.number pid)
        = strictNe (parseInt10 (numberToString k)) (JSVal.number pid))
    ∧ looseNe (parseInt10 (numberToString k)) JSVal.undefined
        = strictNe (parseInt10 (numberToString k)) JSVal.undefined := by
  constructor
  · intro pid
    rw [looseNe_number, strictNe_number]
  · rw [looseNe_undefined, strictNe_undefined]

/-! ## A superseded window -/

/-- C9, at the failing input: window `1` connects under id `5`, window `2`
connects under id `5`, window `1` is destroyed; the registry then has no entry
for id `5`, although the latest connection for it came from window `2`, which
is alive. -/
theorem superseded_window_destroyed_removes_live_entry :
    (MainState.run
        [MainEvent.connect 1 (JSVal.number 5), MainEvent.connect 2 (JSVal.number 5)]
      ).connections.get "5" = some 2
    ∧ (MainState.run
        [MainEvent.connect 1 (JSVal.number 5), MainEvent.connect 2 (JSVal.number 5),
          MainEvent.destroyed 1]).connections.get "5" = none := by
  decide

/-! ## Activation -/

theorem rendererProcessLogic_not_configuration (env : RendererEnv) (w : World) :
    (rendererProcessLogic env w).2 ≠ some PluginError.configuration := by
  unfold rendererProcessLogic
  by_cases h1 : env.sendThrows ⟨IPC_EVENT_CONNECT, [JSVal.number env.pid]⟩ = true
  · simp [h1]
  · by_cases h2 : w.options.syncStateOnRendererCreation = JSVal.boolean true
    · cases h3 : env.sendSync ⟨IPC_EVENT_REQUEST_STATE, []⟩ with
      | none => simp [h1, h2, h3]
      | some v =>
        by_cases h4 : env.replaceStateThrows v = true
        · simp [h1, h2, h3, h4]
        · simp [h1, h2, h3, h4]
    · simp [h1, h2]

/-- C6. The plugin (`loadOptions`, then `activatePlugin`) raises the
configuration error exactly when the declared-or-inferred role is neither
`"main"` nor `"renderer"`, and when it does, the store (its `commit` and
`dispatch` included), the registered listeners and the sent messages are what
they were before. -/
theorem configuration_error_iff (env : RendererEnv) (processType : JSVal) (w : World) :
    ((plugin env processType w).2 = some PluginError.configuration ↔
      ((loadOptions processType w.options).type ≠ JSVal.string "main"
        ∧ (loadOptions processType w.options).type ≠ JSVal.string "renderer"))
    ∧ ((plugin env processType w).2 = some PluginError.configuration →
      (plugin env processType w).1.store = w.store
        ∧ (plugin env processType w).1.ipcMainListeners = w.ipcMainListeners
        ∧ (plugin env processType w).1.ipcRendererListeners = w.ipcRendererListeners
        ∧ (plugin env processType w).1.sent = w.sent) := by
  unfold plugin activatePlugin
  by_cases hr : (loadOptions processType w.options).type = JSVal.string "renderer"
  · have hne := rendererProcessLogic_not_configuration env
      { w with options := loadOptions processType w.options }
    simp only [hr, if_true]
    constructor
    · constructor
      · intro h; exact absurd h hne
      · intro h; exact absurd rfl h.2
    · intro h; exact absurd h hne
  · by_cases hm : (loadOptions processType w.options).type = JSVal.string "main"
    · simp [hr, hm]
    · simp [hr, hm]

theorem configuration_error_iff_witness :
    (plugin ⟨7, fun _ => false, fun _ => none, fun _ => false⟩ (JSVal.string "browser")
        ⟨⟨JSVal.string "worker", none, none, JSVal.undefined⟩,
          ⟨JSVal.number 0, EntryPoint.own, EntryPoint.own, none, none⟩, [], [], []⟩).1.store
      = ⟨JSVal.number 0, EntryPoint.own, EntryPoint.own, none, none⟩
    ∧ (plugin ⟨7, fun _ => false, fun _ => none, fun _ => false⟩ (JSVal.string "browser")
        ⟨⟨JSVal.string "worker", none, none, JSVal.undefined⟩,
          ⟨JSVal.number 0, EntryPoint.own, EntryPoint.own, none, none⟩, [], [], []⟩
        ).1.ipcMainListeners = []
    ∧ (plugin ⟨7, fun _ => false, fun _ => none, fun _ => false⟩ (JSVal.string "browser")
        ⟨⟨JSVal.string "worker", none, none, JSVal.undefined⟩,
          ⟨JSVal.number 0, EntryPoint.own, EntryPoint.own, none, none⟩, [], [], []⟩
        ).1.ipcRendererListeners = []
    ∧ (plugin ⟨7, fun _ => false, fun _ => none, fun _ => false⟩ (JSVal.string "browser")
        ⟨⟨JSVal.string "worker", none, none, JSVal.undefined⟩,
          ⟨JSVal.number 0, EntryPoint.own, EntryPoint.own, none, none⟩, [], [], []⟩).1.sent
      = [] :=
  (configuration_error_iff ⟨7, fun _ => false, fun _ => none, fun _ => false⟩
    (JSVal.string "browser")
    ⟨⟨JSVal.string "worker", none, none, JSVal.undefined⟩,
      ⟨JSVal.number 0, EntryPoint.own, EntryPoint.own, none, none⟩, [], [], []⟩).2 (by decide)

/-! ## Bootstrap synchronisation -/

/-- C7, as the claim states it, fails: with `syncStateOnRendererCreation = true`
and a state request that returns `undefined`, which `store.replaceState`
accepts, `rendererProcessLogic` raises nothing, leaves the local state replaced
by `undefined` and installs both interceptors. -/
theorem bootstrap_accepts_malformed_snapshot :
    (rendererProcessLogic ⟨7, fun _ => false, fun _ => some JSVal.undefined, fun _ => false⟩
        ⟨⟨JSVal.string "renderer", some 0, some 1, JSVal.boolean true⟩,
          ⟨JSVal.string "local", EntryPoint.own, EntryPoint.own, none, none⟩, [], [], []⟩).2
      = none
    ∧ (rendererProcessLogic ⟨7, fun _ => false, fun _ => some JSVal.undefined, fun _ => false⟩
        ⟨⟨JSVal.string "renderer", some 0, some 1, JSVal.boolean true⟩,
          ⟨JSVal.string "local", EntryPoint.own, EntryPoint.own, none, none⟩, [], [], []⟩).1.store
      = ⟨JSVal.undefined, EntryPoint.rendererOverride, EntryPoint.rendererOverride,
          some EntryPoint.own, some EntryPoint.own⟩ := by
  decide

/-- C7, amended. For a renderer started with `syncStateOnRendererCreation = true`
whose Connect message was sent: when the synchronous state request throws, or
`store.replaceState` throws on the response, `rendererProcessLogic` raises the
synchronisation error and installs no interceptor and no listener; when the
request returns a value that `store.replaceState` accepts, the local state
becomes that value, whatever it is, both interceptors are installed and no
error is raised. -/
theorem bootstrap_sync (env : RendererEnv) (w : World)
    (hsync : w.options.syncStateOnRendererCreation = JSVal.boolean true)
    (hconnect : env.sendThrows ⟨IPC_EVENT_CONNECT, [JSVal.number env.pid]⟩ = false) :
    ((env.sendSync ⟨IPC_EVENT_REQUEST_STATE, []⟩ = none
        ∨ ∃ v, env.sendSync ⟨IPC_EVENT_REQUEST_STATE, []⟩ = some v
            ∧ env.replaceStateThrows v = true) →
      (rendererProcessLogic env w).2 = some PluginError.synchronization
        ∧ (rendererProcessLogic env w).1.store = w.store
        ∧ (rendererProcessLogic env w).1.ipcRendererListeners = w.ipcRendererListeners)
    ∧ (∀ v, env.sendSync ⟨IPC_EVENT_REQUEST_STATE, []⟩ = some v →
        env.replaceStateThrows v = false →
        (rendererProcessLogic env w).2 = none
          ∧ (rendererProcessLogic env w).1.store
            = ⟨v, EntryPoint.rendererOverride, EntryPoint.rendererOverride,
                some w.store.commit, some w.store.dispatch⟩) := by
  constructor
  · intro h
    rcases h with h | ⟨v, hv, ht⟩
    · simp [rendererProcessLogic, hsync, hconnect, h]
    · simp [rendererProcessLogic, hsync, hconnect, hv, ht]
  · intro v hv ht
    simp [rendererProcessLogic, hsync, hconnect, hv, ht]

theorem bootstrap_sync_witness :
    ((rendererProcessLogic ⟨7, fun _ => false, fun _ => none, fun _ => false⟩
        ⟨⟨JSVal.string "renderer", some 0, some 1, JSVal.boolean true⟩,
          ⟨JSVal.string "local", EntryPoint.own, EntryPoint.own, none, none⟩, [], [], []⟩).2
        = some PluginError.synchronization
      ∧ (rendererProcessLogic ⟨7, fun _ => false, fun _ => none, fun _ => false⟩
        ⟨⟨JSVal.string "renderer", some 0, some 1, JSVal.boolean true⟩,
          ⟨JSVal.string "local", EntryPoint.own, EntryPoint.own, none, none⟩, [], [], []⟩).1.store
        = ⟨JSVal.string "local", EntryPoint.own, EntryPoint.own, none, none⟩
      ∧ (rendererProcessLogic ⟨7, fun _ => false, fun _ => none, fun _ => false⟩
        ⟨⟨JSVal.string "renderer", some 0, some 1, JSVal.boolean true⟩,
          ⟨JSVal.string "local", EntryPoint.own, EntryPoint.own, none, none⟩, [], [], []⟩
          ).1.ipcRendererListeners = [])
    ∧ ((rendererProcessLogic
          ⟨7, fun _ => false, fun _ => some (JSVal.number 5), fun _ => false⟩
        ⟨⟨JSVal.string "renderer", some 0, some 1, JSVal.boolean true⟩,
          ⟨JSVal.string "local", EntryPoint.own, EntryPoint.own, none, none⟩, [], [], []⟩).2
        = none
      ∧ (rendererProcessLogic
          ⟨7, fun _ => false, fun _ => some (JSVal.number 5), fun _ => false⟩
        ⟨⟨JSVal.string "renderer", some 0, some 1, JSVal.boolean true⟩,
          ⟨JSVal.string "local", EntryPoint.own, EntryPoint.own, none, none⟩, [], [], []⟩).1.store
        = ⟨JSVal.number 5, EntryPoint.rendererOverride, EntryPoint.rendererOverride,
            some EntryPoint.own, some EntryPoint.own⟩) :=
  ⟨(bootstrap_sync ⟨7, fun _ => false, fun _ => none, fun _ => false⟩
      ⟨⟨JSVal.string "renderer", some 0, some 1, JSVal.boolean true⟩,
        ⟨JSVal.string "local", EntryPoint.own, EntryPoint.own, none, none⟩, [], [], []⟩
      rfl rfl).1 (Or.inl rfl),
    (bootstrap_sync ⟨7, fun _ => false, fun _ => some (JSVal.number 5), fun _ => false⟩
      ⟨⟨JSVal.string "renderer", some 0, some 1, JSVal.boolean true⟩,
        ⟨JSVal.string "local", EntryPoint.own, EntryPoint.own, none, none⟩, [], [], []⟩
      rfl rfl).2 (JSVal.number 5) rfl rfl⟩

/-! ## The registry over time -/

theorem mem_foldl_delete (win : Handle) (ls : List (Handle × JSVal)) :
    ∀ (c : JSObject Handle) (e : String × Handle),
      e ∈ ls.foldl (fun c l => if l.1 = win then c.delete (toPropertyKey l.2) else c) c ↔
        e ∈ c ∧ ∀ l ∈ ls, l.1 = win → toPropertyKey l.2 ≠ e.1 := by
  induction ls with
  | nil => intro c e; simp
  | cons l ls ih =>
    intro c e
    rw [List.foldl_cons, ih]
    by_cases hl : l.1 = win
    · rw [if_pos hl, JSObject.mem_delete]
      constructor
      · rintro ⟨⟨h1, h2⟩, h3⟩
        refine ⟨h1, ?_⟩
        intro x hx hxw
        rcases List.mem_cons.mp hx with rfl | hx
        · exact fun h => h2 h.symm
        · exact h3 x hx hxw
      · rintro ⟨h1, h2⟩
        exact ⟨⟨h1, fun h => h2 l (List.mem_cons_self _ _) hl h.symm⟩,
          fun x hx hxw => h2 x (List.mem_cons_of_mem _ hx) hxw⟩
    · rw [if_neg hl]
      constructor
      · rintro ⟨h1, h3⟩
        refine ⟨h1, ?_⟩
        intro x hx hxw
        rcases List.mem_cons.mp hx with rfl | hx
        · exact absurd hxw hl
        · exact h3 x hx hxw
      · rintro ⟨h1, h2⟩
        exact ⟨h1, fun x hx hxw => h2 x (List.mem_cons_of_mem _ hx) hxw⟩

theorem registryInv_onConnect {s : MainState} {dead : List Handle} (h : RegistryInv s dead)
    (sender : Handle) (pid : JSVal) (hs : sender ∉ dead) :
    RegistryInv (s.onConnect sender pid) dead := by
  intro e he
  rcases JSObject.mem_set_cases he with heq | hmem
  · subst heq
    exact ⟨hs, pid, by simp [MainState.onConnect], rfl⟩
  · obtain ⟨h1, p, hp, hk⟩ := h e hmem
    exact ⟨h1, p, by simp [MainState.onConnect, hp], hk⟩

theorem registryInv_onDestroyed {s : MainState} {dead : List Handle} (h : RegistryInv s dead)
    (win : Handle) : RegistryInv (s.onDestroyed win) (win :: dead) := by
  intro e he
  have he2 := (mem_foldl_delete win s.destroyedListeners s.connections e).mp he
  obtain ⟨h1, p, hp, hk⟩ := h e he2.1
  refine ⟨?_, p, hp, hk⟩
  intro hmem
  rcases List.mem_cons.mp hmem with heq | hd
  · exact he2.2 (e.2, p) hp heq hk
  · exact h1 hd

theorem registry_avoids_destroyed (trace : List MainEvent) :
    ∀ (s : MainState) (dead : List Handle), RegistryInv s dead → validFrom dead trace = true →
      ∀ e ∈ (trace.foldl MainState.step s).connections, e.2 ∉ dead ∧ e.2 ∉ destroyedIn trace := by
  induction trace with
  | nil =>
    intro s dead h _ e he
    exact ⟨(h e he).1, by simp [destroyedIn]⟩
  | cons ev rest ih =>
    intro s dead h hv e he
    cases ev with
    | connect sender pid =>
      simp only [validFrom, Bool.and_eq_true, decide_eq_true_eq] at hv
      have := ih (s.onConnect sender pid) dead (registryInv_onConnect h sender pid hv.1) hv.2 e he
      simpa [destroyedIn] using this
    | destroyed win =>
      simp only [validFrom] at hv
      have := ih (s.onDestroyed win) (win :: dead) (registryInv_onDestroyed h win) hv e he
      simp only [List.mem_cons, not_or] at this
      refine ⟨this.1.2, ?_⟩
      simp only [destroyedIn, List.filterMap_cons, List.mem_cons, not_or]
      exact ⟨this.1.1, this.2⟩

theorem listeners_of_trace (trace : List MainEvent) :
    ∀ (s : MainState) (win : Handle) (pid : JSVal),
      ((win, pid) ∈ s.destroyedListeners ∨ MainEvent.connect win pid ∈ trace) →
        (win, pid) ∈ (trace.foldl MainState.step s).destroyedListeners := by
  induction trace with
  | nil =>
    intro s win pid h
    rcases h with h | h
    · exact h
    · simp at h
  | cons ev rest ih =>
    intro s win pid h
    rw [List.foldl_cons]
    apply ih
    rcases h with h | h
    · left
      cases ev with
      | connect sender p => simp [MainState.step, MainState.onConnect, h]
      | destroyed w => simpa [MainState.step, MainState.onDestroyed] using h
    · rcases List.mem_cons.mp h with heq | hmem
      · left
        subst heq
        simp [MainState.step, MainState.onConnect]
      · exact Or.inr hmem

theorem sendAll_effects (sendThrows : Handle → IpcMessage → Bool) (msg : IpcMessage)
    (ws : List Handle) :
    ∀ e ∈ (sendAll sendThrows msg ws).effects, ∃ w ∈ ws, e = Effect.winSend w msg := by
  induction ws with
  | nil => intro e he; simp [sendAll] at he
  | cons w ws ih =>
    intro e he
    unfold sendAll at he
    by_cases ht : sendThrows w msg = true
    · simp [ht] at he
    · simp only [ht, Bool.false_eq_true, if_false, List.mem_cons] at he
      rcases he with rfl | he
      · exact ⟨w, List.mem_cons_self _ _, rfl⟩
      · obtain ⟨x, hx, rfl⟩ := ih e he
        exact ⟨x, List.mem_cons_of_mem _ hx, rfl⟩

theorem mem_recipients {o : Outcome} {w : Handle} :
    w ∈ o.recipients ↔ ∃ msg, Effect.winSend w msg ∈ o.effects := by
  unfold Outcome.recipients
  rw [List.mem_filterMap]
  constructor
  · rintro ⟨e, he, hw⟩
    cases e with
    | winSend x msg =>
      simp only [Option.some.injEq] at hw
      subst hw
      exact ⟨msg, he⟩
    | originalCommit _ _ => simp at hw
    | originalDispatch _ _ => simp at hw
    | ipcRendererSend _ => simp at hw
  · rintro ⟨msg, h⟩
    exact ⟨_, h, rfl⟩

theorem mainCommit_recipients_registered (sendThrows : Handle → IpcMessage → Bool)
    (o : JSObject Handle) (type payload pid : JSVal) (w : Handle)
    (h : w ∈ (mainCommit sendThrows o type payload pid).recipients) :
    ∃ k, looseNe (parseInt10 k) pid = true ∧ (k, w) ∈ o := by
  obtain ⟨msg, hm⟩ := mem_recipients.mp h
  rw [mainCommit_eq] at hm
  have key : Effect.winSend w msg ∈ (sendAll sendThrows
      ⟨IPC_EVENT_MAIN_SEND_COMMIT, [type, payload]⟩
      (o.targets (fun k => looseNe (parseInt10 k) pid))).effects := by
    split at hm
    · exact hm
    · simpa using hm
  obtain ⟨x, hx, hxe⟩ := sendAll_effects _ _ _ _ key
  have : w = x := by injection hxe
  subst this
  exact targets_subset _ _ _ hx

theorem mainDispatch_recipients_registered (sendThrows : Handle → IpcMessage → Bool)
    (o : JSObject Handle) (type payload pid : JSVal) (w : Handle)
    (h : w ∈ (mainDispatch sendThrows o type payload pid).recipients) :
    ∃ k, strictNe (parseInt10 k) pid = true ∧ (k, w) ∈ o := by
  obtain ⟨msg, hm⟩ := mem_recipients.mp h
  rw [mainDispatch_eq] at hm
  have key : Effect.winSend w msg ∈ (sendAll sendThrows
      ⟨IPC_EVENT_MAIN_SEND_DISPATCH, [type, payload]⟩
      (o.targets (fun k => strictNe (parseInt10 k) pid))).effects := by
    split at hm
    · exact hm
    · simpa using hm
  obtain ⟨x, hx, hxe⟩ := sendAll_effects _ _ _ _ key
  have : w = x := by injection hxe
  subst this
  exact targets_subset _ _ _ hx

/-- C5. In every state reached by Connect messages and `"destroyed"`
notifications, where a destroyed window sends no further Connect, every
registry entry maps to a window that has not been destroyed; no commit or
dispatch broadcast from such a state sends to a destroyed window; and right
after a window is destroyed the registry has no entry for any id it had
connected under. -/
theorem registry_lifecycle (trace : List MainEvent) (hvalid : TraceValid trace) :
    (∀ e ∈ (MainState.run trace).connections, e.2 ∉ destroyedIn trace)
    ∧ (∀ (sendThrows : Handle → IpcMessage → Bool) (type payload pid : JSVal),
        ∀ win ∈ destroyedIn trace,
          win ∉ (mainCommit sendThrows (MainState.run trace).connections
                  type payload pid).recipients
          ∧ win ∉ (mainDispatch sendThrows (MainState.run trace).connections
                  type payload pid).recipients)
    ∧ (∀ (win : Handle) (pid : JSVal), MainEvent.connect win pid ∈ trace →
        ((MainState.run trace).step (MainEvent.destroyed win)).connections.get
          (toPropertyKey pid) = none) := by
  have hinv : ∀ e ∈ (MainState.run trace).connections, e.2 ∉ destroyedIn trace := by
    intro e he
    have h0 : RegistryInv MainState.init [] := by
      intro e he; simp [MainState.init] at he
    exact (registry_avoids_destroyed trace MainState.init [] h0 hvalid e he).2
  refine ⟨hinv, ?_, ?_⟩
  · intro sendThrows type payload pid win hwin
    constructor
    · intro h
      obtain ⟨k, _, hk⟩ := mainCommit_recipients_registered _ _ _ _ _ _ h
      exact hinv (k, win) hk hwin
    · intro h
      obtain ⟨k, _, hk⟩ := mainDispatch_recipients_registered _ _ _ _ _ _ h
      exact hinv (k, win) hk hwin
  · intro win pid hc
    have hl : (win, pid) ∈ (MainState.run trace).destroyedListeners :=
      listeners_of_trace trace MainState.init win pid (Or.inr hc)
    apply JSObject.get_eq_none
    intro hmem
    obtain ⟨e, he, hk⟩ := List.mem_map.mp hmem
    have := (mem_foldl_delete win _ _ e).mp he
    exact this.2 (win, pid) hl rfl hk.symm

theorem registry_lifecycle_witness :
    TraceValid [MainEvent.connect 1 (JSVal.number 5), MainEvent.connect 2 (JSVal.number 6),
        MainEvent.destroyed 1, MainEvent.connect 3 (JSVal.number 5)]
    ∧ (∀ e ∈ (MainState.run [MainEvent.connect 1 (JSVal.number 5),
          MainEvent.connect 2 (JSVal.number 6), MainEvent.destroyed 1,
          MainEvent.connect 3 (JSVal.number 5)]).connections,
        e.2 ∉ destroyedIn [MainEvent.connect 1 (JSVal.number 5),
          MainEvent.connect 2 (JSVal.number 6), MainEvent.destroyed 1,
          MainEvent.connect 3 (JSVal.number 5)]) :=
  ⟨by decide,
    (registry_lifecycle [MainEvent.connect 1 (JSVal.number 5),
      MainEvent.connect 2 (JSVal.number 6), MainEvent.destroyed 1,
      MainEvent.connect 3 (JSVal.number 5)] (by decide)).1⟩

/-! ## Reconnection -/

theorem recipients_commit_sends (ws : List Handle) (msg : IpcMessage) (type payload : JSVal)
    (b : Bool) :
    Outcome.recipients ⟨ws.map (fun w => Effect.winSend w msg)
      ++ [Effect.originalCommit type payload], b⟩ = ws := by
  simp only [Outcome.recipients, List.filterMap_append, List.filterMap_map]
  have : (fun e : Effect => match e with
      | Effect.winSend w _ => some w
      | _ => none) ∘ (fun w => Effect.winSend w msg) = some := by
    funext w; rfl
  rw [this]
  simp

theorem recipients_dispatch_sends (ws : List Handle) (msg : IpcMessage) (type payload : JSVal)
    (b : Bool) :
    Outcome.recipients ⟨ws.map (fun w => Effect.winSend w msg)
      ++ [Effect.originalDispatch type payload], b⟩ = ws := by
  simp only [Outcome.recipients, List.filterMap_append, List.filterMap_map]
  have : (fun e : Effect => match e with
      | Effect.winSend w _ => some w
      | _ => none) ∘ (fun w => Effect.winSend w msg) = some := by
    funext w; rfl
  rw [this]
  simp

theorem count_map_snd (l : List (String × Handle)) (c : Handle) :
    (l.map Prod.snd).count c = (l.filter (fun e => decide (e.2 = c))).length := by
  induction l with
  | nil => rfl
  | cons e l ih =>
    by_cases h : e.2 = c
    · simp [List.filter_cons, h, ih]
    · simp [List.filter_cons, h, ih, List.count_cons]

theorem length_filter_split {β : Type} (l : List β) (p q : β → Bool) :
    (l.filter p).length
      = ((l.filter q).filter p).length + ((l.filter (fun x => !q x)).filter p).length := by
  induction l with
  | nil => rfl
  | cons x l ih =>
    cases hq : q x <;> cases hp : p x <;> simp [List.filter_cons, hq, hp, ih] <;> omega

/-- The number of envelopes a broadcast over the registry after `Connect(id, c1)`
and `Connect(id, c2)` sends to `c2`, for a test that the key of `id` passes. -/
theorem count_targets_after_reconnect (o : JSObject Handle) (hwf : o.WF) (k : String)
    (c1 c2 : Handle) (test : String → Bool) (ht : test k = true) :
    (((o.set k c1).set k c2).targets test).count c2
      = 1 + ((o.filter (fun e => decide (e.1 ≠ k))).filter
          (fun e => test e.1 && decide (e.2 = c2))).length := by
  have hwf1 : (o.set k c1).WF := JSObject.wf_set hwf k c1
  have hwf2 : ((o.set k c1).set k c2).WF := JSObject.wf_set hwf1 k c2
  rw [(targets_perm hwf2 test).count_eq, count_map_snd, List.filter_filter]
  rw [length_filter_split _ _ (fun e => decide (e.1 = k))]
  rw [JSObject.filter_eq_set hwf1 k c2]
  have hneg : (fun x : String × Handle => !decide (x.1 = k)) = (fun e => decide (e.1 ≠ k)) := by
    funext x; simp
  rw [hneg, JSObject.filter_ne_set, JSObject.filter_ne_set]
  have hone : ([(k, c2)] : List (String × Handle)).filter
      (fun a => decide (a.2 = c2) && test a.1) = [(k, c2)] := by
    simp [List.filter_cons, ht]
  rw [hone]
  have hswap : (fun a : String × Handle => decide (a.2 = c2) && test a.1)
      = (fun e => test e.1 && decide (e.2 = c2)) := by
    funext a; exact Bool.and_comm _ _
  rw [hswap]
  simp

/-- C8. Handling `Connect(id, c1)` and then `Connect(id, c2)` leaves exactly one
registry entry for `id`, which maps to `c2`, and leaves the entries of all
other identities as they were; a later commit or dispatch broadcast that does
not exclude `id`, with windows that accept the message, sends `c2` exactly one
envelope for `id` (beside one for every other non-excluded entry that maps to
`c2`). The handler is a total function: it raises nothing. -/
theorem reconnect_last_write_wins (s : MainState) (hwf : s.connections.WF) (id : JSVal)
    (c1 c2 : Handle) :
    ((s.onConnect c1 id).onConnect c2 id).connections.filter
        (fun e => decide (e.1 = toPropertyKey id)) = [(toPropertyKey id, c2)]
    ∧ ((s.onConnect c1 id).onConnect c2 id).connections.filter
        (fun e => decide (e.1 ≠ toPropertyKey id))
      = s.connections.filter (fun e => decide (e.1 ≠ toPropertyKey id))
    ∧ (∀ (sendThrows : Handle → IpcMessage → Bool) (type payload pid : JSVal),
        (∀ e ∈ ((s.onConnect c1 id).onConnect c2 id).connections,
          sendThrows e.2 ⟨IPC_EVENT_MAIN_SEND_COMMIT, [type, payload]⟩ = false) →
        looseNe (parseInt10 (toPropertyKey id)) pid = true →
        (mainCommit sendThrows ((s.onConnect c1 id).onConnect c2 id).connections
            type payload pid).recipients.count c2
          = 1 + ((s.connections.filter (fun e => decide (e.1 ≠ toPropertyKey id))).filter
              (fun e => looseNe (parseInt10 e.1) pid && decide (e.2 = c2))).length)
    ∧ (∀ (sendThrows : Handle → IpcMessage → Bool) (type payload pid : JSVal),
        (∀ e ∈ ((s.onConnect c1 id).onConnect c2 id).connections,
          sendThrows e.2 ⟨IPC_EVENT_MAIN_SEND_DISPATCH, [type, payload]⟩ = false) →
        strictNe (parseInt10 (toPropertyKey id)) pid = true →
        (mainDispatch sendThrows ((s.onConnect c1 id).onConnect c2 id).connections
            type payload pid).recipients.count c2
          = 1 + ((s.connections.filter (fun e => decide (e.1 ≠ toPropertyKey id))).filter
              (fun e => strictNe (parseInt10 e.1) pid && decide (e.2 = c2))).length) := by
  have hwf1 : (s.connections.set (toPropertyKey id) c1).WF := JSObject.wf_set hwf _ c1
  refine ⟨?_, ?_, ?_, ?_⟩
  · exact JSObject.filter_eq_set hwf1 _ c2
  · simp only [MainState.onConnect]
    rw [JSObject.filter_ne_set, JSObject.filter_ne_set]
  · intro sendThrows type payload pid hok ht
    have hsend : ∀ w ∈ JSObject.targets ((s.onConnect c1 id).onConnect c2 id).connections
        (fun k => looseNe (parseInt10 k) pid),
        sendThrows w ⟨IPC_EVENT_MAIN_SEND_COMMIT, [type, payload]⟩ = false := by
      intro w hw
      obtain ⟨k, _, hmem⟩ := targets_subset _ _ _ hw
      exact hok (k, w) hmem
    rw [mainCommit_ok _ _ _ _ _ hsend, recipients_commit_sends]
    exact count_targets_after_reconnect s.connections hwf _ c1 c2 _ ht
  · intro sendThrows type payload pid hok ht
    have hsend : ∀ w ∈ JSObject.targets ((s.onConnect c1 id).onConnect c2 id).connections
        (fun k => strictNe (parseInt10 k) pid),
        sendThrows w ⟨IPC_EVENT_MAIN_SEND_DISPATCH, [type, payload]⟩ = false := by
      intro w hw
      obtain ⟨k, _, hmem⟩ := targets_subset _ _ _ hw
      exact hok (k, w) hmem
    rw [mainDispatch_ok _ _ _ _ _ hsend, recipients_dispatch_sends]
    exact count_targets_after_reconnect s.connections hwf _ c1 c2 _ ht

theorem reconnect_last_write_wins_witness :
    JSObject.WF (MainState.mk [("1", 10)] [(10, JSVal.number 1)]).connections
    ∧ (((MainState.mk [("1", 10)] [(10, JSVal.number 1)]).onConnect 20
          (JSVal.number 2)).onConnect 30 (JSVal.number 2)).connections.filter
        (fun e => decide (e.1 = toPropertyKey (JSVal.number 2)))
      = [(toPropertyKey (JSVal.number 2), 30)]
    ∧ (mainCommit (fun _ _ => false)
          (((MainState.mk [("1", 10)] [(10, JSVal.number 1)]).onConnect 20
            (JSVal.number 2)).onConnect 30 (JSVal.number 2)).connections
          (JSVal.string "inc") (JSVal.number 1) (JSVal.number 1)).recipients.count 30
      = 1 + (((MainState.mk [("1", 10)] [(10, JSVal.number 1)]).connections.filter
            (fun e => decide (e.1 ≠ toPropertyKey (JSVal.number 2)))).filter
          (fun e => looseNe (parseInt10 e.1) (JSVal.number 1) && decide (e.2 = 30))).length :=
  ⟨by decide,
    (reconnect_last_write_wins (MainState.mk [("1", 10)] [(10, JSVal.number 1)]) (by decide)
      (JSVal.number 2) 20 30).1,
    (reconnect_last_write_wins (MainState.mk [("1", 10)] [(10, JSVal.number 1)]) (by decide)
      (JSVal.number 2) 20 30).2.2.1 (fun _ _ => false) (JSVal.string "inc") (JSVal.number 1)
      (JSVal.number 1) (by intro e _; rfl) (by decide)⟩

/-! ## End to end -/

theorem filter_eq_singleton_of_nodup (l : List Handle) (a : Handle) (hn : l.Nodup)
    (ha : a ∈ l) : l.filter (fun x => decide (x = a)) = [a] := by
  induction l with
  | nil => simp at ha
  | cons x l ih =>
    rw [List.nodup_cons] at hn
    by_cases hx : x = a
    · subst hx
      have : l.filter (fun y => decide (y = x)) = [] := by
        rw [List.filter_eq_nil_iff]
        intro y hy
        have : y ≠ x := fun h => hn.1 (h ▸ hy)
        simpa using this
      simp [List.filter_cons, this]
    · have ha2 : a ∈ l := by
        rcases List.mem_cons.mp ha with h | h
        · exact absurd h.symm hx
        · exact h
      simp [List.filter_cons, hx, ih hn.2 ha2]

theorem filter_eq_nil_of_not_mem (l : List Handle) (a : Handle) (ha : a ∉ l) :
    l.filter (fun x => decide (x = a)) = [] := by
  rw [List.filter_eq_nil_iff]
  intro y hy
  have : y ≠ a := fun h => ha (h ▸ hy)
  simpa using this

/-- The log of one intercepted commit in a renderer and of the deliveries that
follow, when no `send` throws. -/
theorem commitRoundTrip_log (rendererSendThrows : IpcMessage → Bool)
    (mainSendThrows : Handle → IpcMessage → Bool) (s : MainState) (type payload : JSVal)
    (pid : Int) (win : Handle)
    (hr : rendererSendThrows
      ⟨IPC_EVENT_RENDERER_SEND_COMMIT, [type, payload, JSVal.number pid]⟩ = false)
    (hm : ∀ e ∈ s.connections,
      mainSendThrows e.2 ⟨IPC_EVENT_MAIN_SEND_COMMIT, [type, payload]⟩ = false) :
    commitRoundTrip rendererSendThrows mainSendThrows s win pid type payload
      = [(Process.renderer win, Effect.ipcRendererSend
            ⟨IPC_EVENT_RENDERER_SEND_COMMIT, [type, payload, JSVal.number pid]⟩),
          (Process.renderer win, Effect.originalCommit type payload)]
        ++ ((s.connections.targets (fun k => looseNe (parseInt10 k) (JSVal.number pid))).map
            (fun w => (Process.main,
              Effect.winSend w ⟨IPC_EVENT_MAIN_SEND_COMMIT, [type, payload]⟩))
          ++ [(Process.main, Effect.originalCommit type payload)]
          ++ (s.connections.targets (fun k => looseNe (parseInt10 k) (JSVal.number pid))).map
            (fun w => (Process.renderer w, Effect.originalCommit type payload))) := by
  have hsend : ∀ w ∈ s.connections.targets (fun k => looseNe (parseInt10 k) (JSVal.number pid)),
      mainSendThrows w ⟨IPC_EVENT_MAIN_SEND_COMMIT, [type, payload]⟩ = false := by
    intro w hw
    obtain ⟨k, _, hmem⟩ := targets_subset _ _ _ hw
    exact hm (k, w) hmem
  have hmain : (mainReceive mainSendThrows s win
      ⟨IPC_EVENT_RENDERER_SEND_COMMIT, [type, payload, JSVal.number pid]⟩).2
      = ⟨(s.connections.targets (fun k => looseNe (parseInt10 k) (JSVal.number pid))).map
          (fun w => Effect.winSend w ⟨IPC_EVENT_MAIN_SEND_COMMIT, [type, payload]⟩)
        ++ [Effect.originalCommit type payload], false⟩ := by
    have hc : IPC_EVENT_RENDERER_SEND_COMMIT ≠ IPC_EVENT_CONNECT := by decide
    unfold mainReceive
    simp only [hc, if_false, if_true]
    exact mainCommit_ok mainSendThrows s.connections type payload (JSVal.number pid) hsend
  have hdeliver : ∀ ws : List Handle,
      deliverToRenderers (ws.map
        (fun w => Effect.winSend w ⟨IPC_EVENT_MAIN_SEND_COMMIT, [type, payload]⟩)
        ++ [Effect.originalCommit type payload])
      = ws.map (fun w => (Process.renderer w, Effect.originalCommit type payload)) := by
    intro ws
    induction ws with
    | nil => simp [deliverToRenderers]
    | cons w ws ih =>
      simp only [deliverToRenderers, List.map_cons, List.cons_append, List.flatMap_cons] at ih ⊢
      rw [ih]
      simp [rendererReceive, IpcMessage.arg]
  unfold commitRoundTrip
  simp only [rendererCommit, hr, Bool.false_eq_true, if_false, List.map_cons, List.map_nil,
    deliverToMain, List.flatMap_cons, List.flatMap_nil, hmain, hdeliver, List.append_nil,
    List.map_append, List.map_map]
  rfl

theorem targets_of_integer_registry {o : JSObject Handle} (hwf : o.WF)
    (hint : ∀ e ∈ o, ∃ n : Int, e.1 = numberToString n) (hwin : (o.map Prod.snd).Nodup)
    (pid : Int) (win : Handle) (hreg : o.get (numberToString pid) = some win) :
    (o.targets (fun k => looseNe (parseInt10 k) (JSVal.number pid))).Nodup
    ∧ win ∉ o.targets (fun k => looseNe (parseInt10 k) (JSVal.number pid))
    ∧ ∀ (pid2 : Int) (win2 : Handle), pid2 ≠ pid → o.get (numberToString pid2) = some win2 →
        win2 ∈ o.targets (fun k => looseNe (parseInt10 k) (JSVal.number pid)) := by
  have hperm := targets_perm hwf (fun k => looseNe (parseInt10 k) (JSVal.number pid))
  rw [filter_test_number hint] at hperm
  have hinj := List.inj_on_of_nodup_map hwin
  refine ⟨?_, ?_, ?_⟩
  · rw [hperm.nodup_iff]
    exact List.Nodup.sublist (List.Sublist.map _ (List.filter_sublist _)) hwin
  · intro hmem
    rw [hperm.mem_iff] at hmem
    obtain ⟨e, he, hsnd⟩ := List.mem_map.mp hmem
    rw [List.mem_filter] at he
    have hP := JSObject.mem_of_get hreg
    have heq : e = (numberToString pid, win) := hinj he.1 hP hsnd
    have hne : e.1 ≠ numberToString pid := by simpa using he.2
    exact hne (by rw [heq])
  · intro pid2 win2 hne hreg2
    rw [hperm.mem_iff]
    refine List.mem_map.mpr ⟨(numberToString pid2, win2), ?_, rfl⟩
    rw [List.mem_filter]
    refine ⟨JSObject.mem_of_get hreg2, ?_⟩
    have : numberToString pid2 ≠ numberToString pid := fun h => hne (numberToString_injective h)
    simpa using this

/-- C1. In a system whose registry holds the renderers under the decimal keys
of pairwise distinct integer process ids, one window each, and in which no
`send` throws: one call of the intercepted `store.commit(type, payload)` in the
renderer `win` with process id `pid`, followed by the delivery of all
resulting messages, invokes the original commit exactly once in that renderer,
exactly once in the coordinator and exactly once in every other registered
renderer, each time with `(type, payload)`, and no message is sent to `win`. -/
theorem commit_exactly_once_no_echo (rendererSendThrows : IpcMessage → Bool)
    (mainSendThrows : Handle → IpcMessage → Bool) (s : MainState) (type payload : JSVal)
    (pid : Int) (win : Handle)
    (hwf : s.connections.WF)
    (hint : ∀ e ∈ s.connections, ∃ n : Int, e.1 = numberToString n)
    (hwin : (s.connections.map Prod.snd).Nodup)
    (hreg : s.connections.get (numberToString pid) = some win)
    (hr : rendererSendThrows
      ⟨IPC_EVENT_RENDERER_SEND_COMMIT, [type, payload, JSVal.number pid]⟩ = false)
    (hm : ∀ e ∈ s.connections,
      mainSendThrows e.2 ⟨IPC_EVENT_MAIN_SEND_COMMIT, [type, payload]⟩ = false) :
    (commitRoundTrip rendererSendThrows mainSendThrows s win pid type payload).filter
        (fun x => decide (x.1 = Process.renderer win) && x.2.isOriginalCommit)
      = [(Process.renderer win, Effect.originalCommit type payload)]
    ∧ (commitRoundTrip rendererSendThrows mainSendThrows s win pid type payload).filter
        (fun x => decide (x.1 = Process.main) && x.2.isOriginalCommit)
      = [(Process.main, Effect.originalCommit type payload)]
    ∧ (∀ (pid2 : Int) (win2 : Handle), pid2 ≠ pid →
        s.connections.get (numberToString pid2) = some win2 →
        (commitRoundTrip rendererSendThrows mainSendThrows s win pid type payload).filter
            (fun x => decide (x.1 = Process.renderer win2) && x.2.isOriginalCommit)
          = [(Process.renderer win2, Effect.originalCommit type payload)])
    ∧ (∀ x ∈ commitRoundTrip rendererSendThrows mainSendThrows s win pid type payload,
        x.2.isSendTo win = false) := by
  obtain ⟨hnodup, hnot, hothers⟩ := targets_of_integer_registry hwf hint hwin pid win hreg
  rw [commitRoundTrip_log rendererSendThrows mainSendThrows s type payload pid win hr hm]
  generalize s.connections.targets (fun k => looseNe (parseInt10 k) (JSVal.number pid)) = ws
    at hnodup hnot hothers
  have hfilter : ∀ a : Handle,
      (ws.map (fun w => (Process.renderer w, Effect.originalCommit type payload))).filter
        (fun x => decide (x.1 = Process.renderer a) && x.2.isOriginalCommit)
      = (ws.filter (fun w => decide (w = a))).map
          (fun w => (Process.renderer w, Effect.originalCommit type payload)) := by
    intro a
    rw [List.filter_map]
    congr 1
    apply List.filter_congr
    intro w _
    simp [Effect.isOriginalCommit]
  have hmainSends : ∀ a : Handle,
      (ws.map (fun w => (Process.main,
          Effect.winSend w ⟨IPC_EVENT_MAIN_SEND_COMMIT, [type, payload]⟩))).filter
        (fun x => decide (x.1 = Process.renderer a) && x.2.isOriginalCommit) = [] := by
    intro a
    rw [List.filter_eq_nil_iff]
    intro x hx
    obtain ⟨w, _, rfl⟩ := List.mem_map.mp hx
    simp
  refine ⟨?_, ?_, ?_, ?_⟩
  · simp only [List.filter_append, hfilter, hmainSends, filter_eq_nil_of_not_mem ws win hnot]
    simp [List.filter_cons, Effect.isOriginalCommit]
  · have h1 : (ws.map (fun w => (Process.main,
          Effect.winSend w ⟨IPC_EVENT_MAIN_SEND_COMMIT, [type, payload]⟩))).filter
        (fun x => decide (x.1 = Process.main) && x.2.isOriginalCommit) = [] := by
      rw [List.filter_eq_nil_iff]
      intro x hx
      obtain ⟨w, _, rfl⟩ := List.mem_map.mp hx
      simp [Effect.isOriginalCommit]
    have h2 : (ws.map (fun w => (Process.renderer w, Effect.originalCommit type payload))).filter
        (fun x => decide (x.1 = Process.main) && x.2.isOriginalCommit) = [] := by
      rw [List.filter_eq_nil_iff]
      intro x hx
      obtain ⟨w, _, rfl⟩ := List.mem_map.mp hx
      simp
    simp only [List.filter_append, h1, h2]
    simp [List.filter_cons, Effect.isOriginalCommit]
  · intro pid2 win2 hne hreg2
    have hmem := hothers pid2 win2 hne hreg2
    have hww : win ≠ win2 := fun h => hnot (h ▸ hmem)
    simp only [List.filter_append, hfilter, hmainSends,
      filter_eq_singleton_of_nodup ws win2 hnodup hmem]
    simp [List.filter_cons, Effect.isOriginalCommit, hww]
  · intro x hx
    simp only [List.mem_append, List.mem_cons, List.mem_map, List.mem_singleton,
      List.not_mem_nil, or_false] at hx
    rcases hx with (rfl | rfl) | (⟨w, hw, rfl⟩ | rfl) | ⟨w, _, rfl⟩
    · rfl
    · rfl
    · have : w ≠ win := fun h => hnot (h ▸ hw)
      simp [Effect.isSendTo, this]
    · rfl
    · rfl

theorem commit_exactly_once_no_echo_witness :
    JSObject.WF (MainState.mk [("1", 10), ("2", 20), ("3", 30)] []).connections
    ∧ (MainState.mk [("1", 10), ("2", 20), ("3", 30)] []).connections.get (numberToString 2)
        = some 20
    ∧ (commitRoundTrip (fun _ => false) (fun _ _ => false)
          (MainState.mk [("1", 10), ("2", 20), ("3", 30)] []) 20 2
          (JSVal.string "inc") (JSVal.number 1)).filter
        (fun x => decide (x.1 = Process.renderer 20) && x.2.isOriginalCommit)
      = [(Process.renderer 20, Effect.originalCommit (JSVal.string "inc") (JSVal.number 1))] :=
  ⟨by decide, by decide,
    (commit_exactly_once_no_echo (fun _ => false) (fun _ _ => false)
      (MainState.mk [("1", 10), ("2", 20), ("3", 30)] []) (JSVal.string "inc") (JSVal.number 1)
      2 20 (by decide)
      (by
        intro e he
        simp only [List.mem_cons, List.mem_singleton, List.not_mem_nil, or_false] at he
        rcases he with rfl | rfl | rfl
        · exact ⟨1, by decide⟩
        · exact ⟨2, by decide⟩
        · exact ⟨3, by decide⟩)
      (by decide) (by decide) rfl (by intro e _; rfl)).1⟩

/-! ## Commit and dispatch on the ids a renderer sends -/

theorem looseNe_eq_strictNe (x : Option Int) (pid : JSVal)
    (hpid : pid = JSVal.undefined ∨ pid = JSVal.null ∨ ∃ n : Int, pid = JSVal.number n) :
    looseNe x pid = strictNe x pid := by
  rcases hpid with rfl | rfl | ⟨n, rfl⟩ <;> cases x <;> rfl

theorem recipients_append_originalCommit (l : List Effect) (type payload : JSVal)
    (b c : Bool) :
    Outcome.recipients ⟨l ++ [Effect.originalCommit type payload], b⟩
      = Outcome.recipients ⟨l, c⟩ := by
  simp [Outcome.recipients, List.filterMap_append]

theorem recipients_append_originalDispatch (l : List Effect) (type payload : JSVal)
    (b c : Bool) :
    Outcome.recipients ⟨l ++ [Effect.originalDispatch type payload], b⟩
      = Outcome.recipients ⟨l, c⟩ := by
  simp [Outcome.recipients, List.filterMap_append]

theorem mainCommit_recipients_eq (sendThrows : Handle → IpcMessage → Bool)
    (o : JSObject Handle) (type payload pid : JSVal) :
    (mainCommit sendThrows o type payload pid).recipients
      = (sendAll sendThrows ⟨IPC_EVENT_MAIN_SEND_COMMIT, [type, payload]⟩
          (o.targets (fun k => looseNe (parseInt10 k) pid))).recipients := by
  rw [mainCommit_eq]
  split
  · rfl
  · exact recipients_append_originalCommit _ _ _ _ _

theorem mainDispatch_recipients_eq (sendThrows : Handle → IpcMessage → Bool)
    (o : JSObject Handle) (type payload pid : JSVal) :
    (mainDispatch sendThrows o type payload pid).recipients
      = (sendAll sendThrows ⟨IPC_EVENT_MAIN_SEND_DISPATCH, [type, payload]⟩
          (o.targets (fun k => strictNe (parseInt10 k) pid))).recipients := by
  rw [mainDispatch_eq]
  split
  · rfl
  · exact recipients_append_originalDispatch _ _ _ _ _

theorem sendAll_recipients_congr (sendThrows : Handle → IpcMessage → Bool)
    (m1 m2 : IpcMessage) (ws : List Handle)
    (h : ∀ w ∈ ws, sendThrows w m1 = sendThrows w m2) :
    (sendAll sendThrows m1 ws).recipients = (sendAll sendThrows m2 ws).recipients := by
  induction ws with
  | nil => rfl
  | cons w ws ih =>
    have hw := h w (List.mem_cons_self _ _)
    have ih2 := ih (fun x hx => h x (List.mem_cons_of_mem _ hx))
    unfold Outcome.recipients at ih2 ⊢
    unfold sendAll
    rw [← hw]
    by_cases ht : sendThrows w m1 = true
    · simp [ht]
    · simp only [ht, Bool.false_eq_true, if_false, List.filterMap_cons]
      rw [ih2]

/-- C10, amended. For every registry, every `(type, payload)` and every
originating id that is a number or absent (`undefined` or `null`), which is
what a renderer's `process.pid` and a call from the coordinator itself give,
the intercepted `store.commit(type, payload, pid)` and the intercepted
`store.dispatch(type, payload, pid)` select the same registered windows, in the
same order; and when every window treats the two envelopes alike (its `send`
throws on both or on neither), the windows the commit sends to are exactly the
windows the dispatch sends to. -/
theorem commit_dispatch_same_recipients (sendThrows : Handle → IpcMessage → Bool)
    (connections : JSObject Handle) (type payload pid : JSVal)
    (hpid : pid = JSVal.undefined ∨ pid = JSVal.null ∨ ∃ n : Int, pid = JSVal.number n) :
    connections.targets (fun k => looseNe (parseInt10 k) pid)
      = connections.targets (fun k => strictNe (parseInt10 k) pid)
    ∧ ((∀ e ∈ connections,
          sendThrows e.2 ⟨IPC_EVENT_MAIN_SEND_COMMIT, [type, payload]⟩
            = sendThrows e.2 ⟨IPC_EVENT_MAIN_SEND_DISPATCH, [type, payload]⟩) →
        (mainCommit sendThrows connections type payload pid).recipients
          = (mainDispatch sendThrows connections type payload pid).recipients) := by
  have htest : (fun k : String => looseNe (parseInt10 k) pid)
      = (fun k => strictNe (parseInt10 k) pid) := by
    funext k
    exact looseNe_eq_strictNe _ pid hpid
  refine ⟨by rw [htest], ?_⟩
  intro hsame
  rw [mainCommit_recipients_eq, mainDispatch_recipients_eq, htest]
  apply sendAll_recipients_congr
  intro w hw
  obtain ⟨k, _, hmem⟩ := targets_subset _ _ _ hw
  exact hsame (k, w) hmem

theorem commit_dispatch_same_recipients_witness :
    (mainCommit (fun w _ => decide (w = 30)) [("42", 7), ("5", 20), ("77", 30), ("9", 40)]
        (JSVal.string "inc") (JSVal.number 1) (JSVal.number 42)).recipients
      = (mainDispatch (fun w _ => decide (w = 30)) [("42", 7), ("5", 20), ("77", 30), ("9", 40)]
        (JSVal.string "inc") (JSVal.number 1) (JSVal.number 42)).recipients
    ∧ (mainCommit (fun w _ => decide (w = 30)) [("42", 7), ("5", 20), ("77", 30), ("9", 40)]
        (JSVal.string "inc") (JSVal.number 1) (JSVal.number 42)).recipients = [20, 40] :=
  ⟨(commit_dispatch_same_recipients (fun w _ => decide (w = 30))
      [("42", 7), ("5", 20), ("77", 30), ("9", 40)] (JSVal.string "inc") (JSVal.number 1)
      (JSVal.number 42) (Or.inr (Or.inr ⟨42, rfl⟩))).2 (by intro e _; rfl),
    by decide⟩

end VuexElectron
